import Mathlib

/-!
Verification development for the `intent` tool (Python sources under `intent/`).

The Python code is shallowly embedded: pure functions become Lean functions,
Python strings are handled through explicit helpers on `List Char` mirroring
CPython semantics (`str.strip`, `str.split`, `str.startswith`, slicing),
machine-free integers are `Nat`/`Int`, and fallible code returns `Option` or
`Except`.  Components whose source file is absent from the snapshot
(`intent/fs.py`, gate loading/evaluation, `parse_pep440_version`) are modelled
from the specification; their doc comments say so explicitly.
-/

/-! ## Python string primitives -/

/-- CPython whitespace set used by `str.strip` (ASCII part: space, tab,
newline, carriage return, vertical tab, form feed). -/
def pyIsSpace (c : Char) : Bool :=
  c = ' ' || c = '\t' || c = '\n' || c = '\r' || c = Char.ofNat 11 || c = Char.ofNat 12

/-- Strip leading and trailing whitespace from a character list. -/
def stripChars (l : List Char) : List Char :=
  ((l.dropWhile pyIsSpace).reverse.dropWhile pyIsSpace).reverse

/-- Python `str.strip()`. -/
def pyStrip (s : String) : String := String.mk (stripChars s.data)

/-- Python `str.rstrip()`. -/
def pyRstrip (s : String) : String := String.mk ((s.data.reverse.dropWhile pyIsSpace).reverse)

/-- Python `str.split(sep)` for a one-character separator, on char lists.
`"".split(".") == [""]`, and separators at either end produce empty parts. -/
def splitCharList (sep : Char) : List Char → List (List Char)
  | [] => [[]]
  | c :: rest =>
    match splitCharList sep rest with
    | [] => [[c]]
    | h :: t => if c = sep then [] :: h :: t else (c :: h) :: t

/-- Python `str.split(sep)` for a one-character separator. -/
def pySplit (sep : Char) (s : String) : List String :=
  (splitCharList sep s.data).map String.mk

/-- Python `s.startswith(pre)`. -/
def pyStartsWith (s pre : String) : Bool := pre.data.isPrefixOf s.data

/-- Python slicing `s[n:]` (by code points). -/
def pyDropChars (n : Nat) (s : String) : String := String.mk (s.data.drop n)

/-- Python `sub in s` (substring containment), on char lists. -/
def infixOfB (needle : List Char) : List Char → Bool
  | [] => needle.isEmpty
  | c :: rest => needle.isPrefixOf (c :: rest) || infixOfB needle rest

/-- Python `sub in s` (substring containment). -/
def pyContains (s sub : String) : Bool := infixOfB sub.data s.data

/-- Python `sep.flatten(xs)`. -/
def pyJoinSep (sep : String) : List String → String
  | [] => ""
  | [x] => x
  | x :: y :: rest => x ++ sep ++ pyJoinSep sep (y :: rest)

/-- Python `str.splitlines()` for `\n`-separated text: like `split("\n")`
but with a single trailing empty part dropped and `[]` for the empty string. -/
def pySplitlines (s : String) : List String :=
  let parts := pySplit '\n' s
  if parts.getLast? = some "" then parts.dropLast else parts

/-- Python `str.isdigit()` (ASCII digits; nonempty). -/
def isDigitStr (s : String) : Bool := !s.data.isEmpty && s.data.all Char.isDigit

/-- Python `int(s)` for a digit string. -/
def pyInt (s : String) : Nat :=
  s.data.foldl (fun a c => a * 10 + (c.toNat - 48)) 0

/-- Python `str.split()` (split on whitespace runs, no empty parts). -/
def pySplitWS (s : String) : List String :=
  ((s.data.splitOnP pyIsSpace).map String.mk).filter (fun p => p ≠ "")

/-- An ASCII apostrophe, built by code point so that source text stays
free of quote characters. -/
def sglq : String := String.singleton (Char.ofNat 39)

/-- Python `repr` of a string as it appears in the error messages of the
embedded code (quotes only; escaping of exotic characters is not modelled). -/
def pyReprStr (s : String) : String := sglq ++ s ++ sglq

/-! ## intent/versioning.py -/

/-- Python tuple comparison `a < b` on `tuple[int, ...]`: lexicographic,
with a strict prefix comparing as smaller. -/
def pyLt : List Nat → List Nat → Bool
  | [], [] => false
  | [], _ :: _ => true
  | _ :: _, [] => false
  | a :: as_, b :: bs => if a < b then true else if a = b then pyLt as_ bs else false

/-- The loop of `parse_version`: processes stripped dot-parts in order,
breaking at the first empty part, failing on a non-digit part. -/
def parseVersionGo (acc : List Nat) : List String → Option (List Nat)
  | [] => if acc.isEmpty then none else some acc
  | p :: rest =>
    if p = "" then (if acc.isEmpty then none else some acc)
    else if isDigitStr p then parseVersionGo (acc ++ [pyInt p]) rest
    else none

/-- `intent/versioning.py: parse_version` — parse a dotted version string
into a tuple of non-negative integers. -/
def parse_version (version : String) : Option (List Nat) :=
  let v := pyStrip version
  if v = "" then none
  else parseVersionGo [] ((pySplit '.' v).map pyStrip)

/-- The loop of `max_lower_bound`: keeps the largest parsed `>=` bound. -/
def maxLowerBoundGo (best : Option (List Nat)) : List String → Option (List Nat)
  | [] => best
  | c :: rest =>
    let c := pyStrip c
    if pyStartsWith c ">=" then
      match parse_version (pyStrip (pyDropChars 2 c)) with
      | none => maxLowerBoundGo best rest
      | some bound =>
        match best with
        | none => maxLowerBoundGo (some bound) rest
        | some b =>
          if pyLt b bound then maxLowerBoundGo (some bound) rest
          else maxLowerBoundGo (some b) rest
    else maxLowerBoundGo best rest

/-- `intent/versioning.py: max_lower_bound` — largest `>=` bound among the
constraint strings, or `none`. -/
def max_lower_bound (constraints : List String) : Option (List Nat) :=
  maxLowerBoundGo none constraints

/-- One iteration of the loop of `check_requires_python_range`; the state is
`(supported, ok)`. -/
def clauseStep (intent : List Nat) (st : Bool × Bool) (c : String) : Bool × Bool :=
  if pyStartsWith c ">=" then
    match parse_version (pyStrip (pyDropChars 2 c)) with
    | none => (false, st.2)
    | some bound => (st.1, if pyLt intent bound then false else st.2)
  else if pyStartsWith c "<" then
    match parse_version (pyStrip (pyDropChars 1 c)) with
    | none => (false, st.2)
    | some bound => (st.1, if !pyLt intent bound then false else st.2)
  else (false, st.2)

/-- `intent/versioning.py: check_requires_python_range` — best-effort check of
an intent version against a comma-separated constraint spec.  `none` stands
for Python `None` (unsupported/unknown pattern). -/
def check_requires_python_range (intentVersion spec : String) : Option Bool :=
  match parse_version intentVersion with
  | none => none
  | some intentParsed =>
    let constraints := ((pySplit ',' spec).map pyStrip).filter (fun c => c ≠ "")
    if constraints.isEmpty then none
    else
      let st := constraints.foldl (clauseStep intentParsed) (true, true)
      if st.1 then some st.2 else none

/-- A clause the code actually supports: `>=` or `<` followed by a parseable
version (`>=` is tested first, so `<=...` falls into the `<` branch with an
unparseable remainder). -/
def codeClauseSupported (c : String) : Bool :=
  (pyStartsWith c ">=" && (parse_version (pyStrip (pyDropChars 2 c))).isSome) ||
  (!pyStartsWith c ">=" && pyStartsWith c "<" &&
    (parse_version (pyStrip (pyDropChars 1 c))).isSome)

/-- The per-clause comparison performed by the code (vacuously true for
clauses the code does not support). -/
def clauseHolds (intent : List Nat) (c : String) : Bool :=
  if pyStartsWith c ">=" then
    match parse_version (pyStrip (pyDropChars 2 c)) with
    | none => true
    | some bound => !pyLt intent bound
  else if pyStartsWith c "<" then
    match parse_version (pyStrip (pyDropChars 1 c)) with
    | none => true
    | some bound => pyLt intent bound
  else true

/-- Clause whose leading operator belongs to the set named by the spec
(`==`, `>=`, `>`, `<`, `<=`, `~=`); written from the specification text,
for comparison with the code. -/
def specClauseOperatorSupported (c : String) : Bool :=
  pyStartsWith c "==" || pyStartsWith c ">=" || pyStartsWith c "<=" ||
  pyStartsWith c "~=" || pyStartsWith c ">" || pyStartsWith c "<"

/-- The clause list of a spec string as the code computes it. -/
def specClauses (spec : String) : List String :=
  ((pySplit ',' spec).map pyStrip).filter (fun c => c ≠ "")

/-- The spec's description of `max_lower_bound`: the bound of a `>=` or `>`
clause; written from the specification text, for comparison with the code. -/
def specLowerBoundOf (c : String) : Option (List Nat) :=
  let c := pyStrip c
  if pyStartsWith c ">=" then parse_version (pyStrip (pyDropChars 2 c))
  else if pyStartsWith c ">" then parse_version (pyStrip (pyDropChars 1 c))
  else none

/-- Fold computing a running Python-order maximum. -/
def pickMax (best : Option (List Nat)) : List (List Nat) → Option (List Nat)
  | [] => best
  | b :: rest =>
    match best with
    | none => pickMax (some b) rest
    | some m => if pyLt m b then pickMax (some b) rest else pickMax (some m) rest

/-- The `>=` bounds the code considers in `max_lower_bound`. -/
def geBounds (constraints : List String) : List (List Nat) :=
  constraints.filterMap (fun c =>
    let c := pyStrip c
    if pyStartsWith c ">=" then parse_version (pyStrip (pyDropChars 2 c)) else none)

/-! ## JSON data model (payloads parsed from command stdout, `intent/cli.py`)

Parsed JSON payloads are the closed variant `{Null, Bool, Number, String,
Array, Object}`.  Numbers are integers (`json.loads` yields `int` for integer
literals; floating point is outside the embedding and no claim depends on it).
-/

inductive Json where
  | null
  | bool (b : Bool)
  | num (n : Int)
  | str (s : String)
  | arr (items : List Json)
  | obj (fields : List (String × Json))
deriving Repr

/-- Python `type(x).__name__` for JSON-decoded values. -/
def typeName : Json → String
  | .null => "NoneType"
  | .bool _ => "bool"
  | .num _ => "int"
  | .str _ => "str"
  | .arr _ => "list"
  | .obj _ => "dict"

/-- First binding of a key in an object (JSON objects have unique keys). -/
def lookupField (fields : List (String × Json)) (k : String) : Option Json :=
  match fields with
  | [] => none
  | kv :: rest => if kv.1 = k then some kv.2 else lookupField rest k

/-- Python `bool` as `int` (`True == 1`, `False == 0`). -/
def pyBoolInt (b : Bool) : Int := if b then 1 else 0

mutual

/-- Python `==` on JSON-decoded values: numeric equality identifies `bool`
and `int`; lists compare pointwise; dicts compare as key-value maps. -/
def pyEq : Json → Json → Bool
  | .null, .null => true
  | .bool a, .bool b => a = b
  | .bool a, .num n => pyBoolInt a = n
  | .num n, .bool b => n = pyBoolInt b
  | .num a, .num b => a = b
  | .str a, .str b => a = b
  | .arr a, .arr b => pyEqList a b
  | .obj a, .obj b => pyEqObjIncl a b && pyEqObjIncl b a
  | _, _ => false
termination_by a b => sizeOf a + sizeOf b
decreasing_by all_goals (simp_wf; try omega)

/-- Pointwise Python `==` on lists. -/
def pyEqList : List Json → List Json → Bool
  | [], [] => true
  | x :: xs, y :: ys => pyEq x y && pyEqList xs ys
  | _, _ => false
termination_by xs ys => sizeOf xs + sizeOf ys
decreasing_by all_goals (simp_wf; try omega)

/-- Every binding of the first object is matched in the second. -/
def pyEqObjIncl : List (String × Json) → List (String × Json) → Bool
  | [], _ => true
  | (k, v) :: rest, b => pyEqFind k v b && pyEqObjIncl rest b
termination_by a b => sizeOf a + sizeOf b
decreasing_by all_goals (simp_wf; try omega)

/-- The key is bound in the object to a Python-equal value. -/
def pyEqFind (k : String) (v : Json) : List (String × Json) → Bool
  | [] => false
  | (k2, w) :: t => if k = k2 then pyEq v w else pyEqFind k v t
termination_by l => sizeOf v + sizeOf l
decreasing_by all_goals (simp_wf; try omega)

end

/-- Python list membership `x in l` (uses `==`). -/
def pyMem (x : Json) (l : List Json) : Bool := l.any (pyEq x)

/-- Total-order comparison on integers, spelled out. -/
def pyIntCompare (a b : Int) : Ordering :=
  if a < b then .lt else if a = b then .eq else .gt

/-- Lexicographic comparison of code-point lists (Python `str` ordering). -/
def charsCompare : List Char → List Char → Ordering
  | [], [] => .eq
  | [], _ :: _ => .lt
  | _ :: _, [] => .gt
  | a :: as_, b :: bs =>
    if a < b then .lt else if b < a then .gt else charsCompare as_ bs

mutual

/-- Python ordering comparison (`<`, `<=`, `>`, `>=`) on JSON-decoded
values; `none` models the `TypeError` raised for unordered type pairs. -/
def pyCompare : Json → Json → Option Ordering
  | .num a, .num b => some (pyIntCompare a b)
  | .num a, .bool b => some (pyIntCompare a (pyBoolInt b))
  | .bool a, .num b => some (pyIntCompare (pyBoolInt a) b)
  | .bool a, .bool b => some (pyIntCompare (pyBoolInt a) (pyBoolInt b))
  | .str a, .str b => some (charsCompare a.data b.data)
  | .arr a, .arr b => pyCompareList a b
  | _, _ => none

/-- Python list ordering: first non-`==` position decides. -/
def pyCompareList : List Json → List Json → Option Ordering
  | [], [] => some .eq
  | [], _ :: _ => some .lt
  | _ :: _, [] => some .gt
  | x :: xs, y :: ys => if pyEq x y then pyCompareList xs ys else pyCompare x y

end

/-! ## JSON-path tokenization and resolution (`intent/cli.py`) -/

/-- A path token: a bare key or a bracketed array index. -/
inductive PathToken where
  | key (k : String)
  | idx (i : Nat)
deriving Repr

/-- Characters allowed in a bare key segment (`[A-Za-z0-9_-]`). -/
def isKeyChar (c : Char) : Bool := c.isAlpha || c.isDigit || c = '_' || c = '-'

/-- Consume zero or more bracketed indices `[d+]` at the end of a segment
(the regex `\\[(\\d+)\\]` matched repeatedly), as a one-character state
machine: `none` expects `[` or the end; `some acc` is inside brackets,
`acc` holding the digits read so far.  Every mismatch raises the same
"invalid index segment" error the source does. -/
def indexTokensGo (path : String) (state : Option (Option Nat)) :
    List Char → Except String (List Nat)
  | [] =>
    match state with
    | none => .ok []
    | some _ => .error ("invalid index segment in " ++ pyReprStr path)
  | c :: rest =>
    match state with
    | none =>
      if c = '[' then indexTokensGo path (some none) rest
      else .error ("invalid index segment in " ++ pyReprStr path)
    | some acc =>
      if c.isDigit then
        indexTokensGo path (some (some ((acc.getD 0) * 10 + (c.toNat - 48)))) rest
      else if c = ']' then
        match acc with
        | none => .error ("invalid index segment in " ++ pyReprStr path)
        | some n =>
          match indexTokensGo path none rest with
          | .error e => .error e
          | .ok idxs => .ok (n :: idxs)
      else .error ("invalid index segment in " ++ pyReprStr path)

/-- The bracketed-index suffix of one path segment. -/
def indexTokens (path : String) (l : List Char) : Except String (List Nat) :=
  indexTokensGo path none l

/-- Tokenize the dot-separated segments of a path. -/
def tokensOfParts (path : String) : List String → Except String (List PathToken)
  | [] => .ok []
  | p :: rest =>
    if p = "" then .error ("invalid path segment in " ++ pyReprStr path)
    else
      let key := p.data.takeWhile isKeyChar
      if key.isEmpty then .error ("invalid key segment in " ++ pyReprStr path)
      else
        match indexTokens path (p.data.drop key.length) with
        | .error e => .error e
        | .ok idxs =>
          match tokensOfParts path rest with
          | .error e => .error e
          | .ok ts => .ok (.key (String.mk key) :: (idxs.map PathToken.idx ++ ts))

/-- `intent/cli.py: _json_path_tokens`. -/
def jsonPathTokens (path : String) : Except String (List PathToken) :=
  if pyStrip path = "" then .error "path cannot be empty"
  else tokensOfParts path (pySplit '.' path)

/-- The walk of `_resolve_json_path`: demands an object for a key token and
an in-range array for an index token; the triple mirrors Python
`(found, value, error)`. -/
def resolveJsonPathGo : Json → List PathToken → Bool × Option Json × Option String
  | cur, [] => (true, some cur, none)
  | cur, .key k :: rest =>
    match cur with
    | .obj fields =>
      match lookupField fields k with
      | none => (false, none, some ("path segment " ++ pyReprStr k ++ " missing"))
      | some v => resolveJsonPathGo v rest
    | _ =>
      (false, none,
        some ("path segment " ++ pyReprStr k ++ " expects object, got " ++ typeName cur))
  | cur, .idx i :: rest =>
    match cur with
    | .arr items =>
      match items[i]? with
      | none => (false, none, some ("path index [" ++ toString i ++ "] out of range"))
      | some v => resolveJsonPathGo v rest
    | _ =>
      (false, none,
        some ("path index [" ++ toString i ++ "] expects array, got " ++ typeName cur))

/-- `intent/cli.py: _resolve_json_path`. -/
def resolveJsonPath (payload : Json) (path : String) : Bool × Option Json × Option String :=
  match jsonPathTokens path with
  | .error e => (false, none, some e)
  | .ok tokens => resolveJsonPathGo payload tokens

/-! ## Assertion comparison and the check engine (`intent/cli.py`) -/

/-- Stable machine code for check failures. -/
def ERR_CHECK : String := "INTENT401"

/-- Stable machine code for version failures. -/
def ERR_VERSION : String := "INTENT101"

/-- `intent/cli.py: _compare_assertion` — `(ok, error-reason)`. -/
def compareAssertion (actual : Json) (op : String) (expected : Json) : Bool × Option String :=
  if op = "eq" then (pyEq actual expected, none)
  else if op = "ne" then (!pyEq actual expected, none)
  else if op = "in" then
    match expected with
    | .arr items => (pyMem actual items, none)
    | _ => (false, some ("expected array for " ++ sglq ++ "in" ++ sglq ++ " operator"))
  else if op = "not_in" then
    match expected with
    | .arr items => (!pyMem actual items, none)
    | _ => (false, some ("expected array for " ++ sglq ++ "not_in" ++ sglq ++ " operator"))
  else if op = "gt" then
    match pyCompare actual expected with
    | none => (false, some ("incompatible types for operator " ++ pyReprStr op))
    | some o => (o = .gt, none)
  else if op = "gte" then
    match pyCompare actual expected with
    | none => (false, some ("incompatible types for operator " ++ pyReprStr op))
    | some o => (o = .gt || o = .eq, none)
  else if op = "lt" then
    match pyCompare actual expected with
    | none => (false, some ("incompatible types for operator " ++ pyReprStr op))
    | some o => (o = .lt, none)
  else if op = "lte" then
    match pyCompare actual expected with
    | none => (false, some ("incompatible types for operator " ++ pyReprStr op))
    | some o => (o = .lt || o = .eq, none)
  else (false, some ("unsupported operator " ++ pyReprStr op))

/-- `intent/config.py: CheckAssertion`. -/
structure CheckAssertion where
  command : String
  path : String
  op : String
  value : Json
  message : Option String
deriving Repr

/-- `intent/config.py: CiSummaryMetric`. -/
structure CiSummaryMetric where
  label : String
  command : String
  path : String
  baselinePath : Option String
  precision : Option Nat
deriving Repr

/-- What the subprocess collaborator returns for a shell command
(`subprocess.run`: exit code, stdout, stderr). -/
structure RunnerOutput where
  returncode : Int
  stdout : String
  stderr : String

/-- The memoized per-command record built by `_run_json_commands`:
either a command-level failure with its reason, or a parsed payload. -/
inductive CmdResult where
  | fail (error stdout stderr : String)
  | ok (payload : Json) (stdout stderr : String)
deriving Repr

/-- First binding of a command name in an association list. -/
def lookupAssoc {α : Type} (l : List (String × α)) (k : String) : Option α :=
  match l with
  | [] => none
  | kv :: rest => if kv.1 = k then some kv.2 else lookupAssoc rest k

/-- Insertion into a sorted list of strings (ascending code-point order,
mirroring Python `sorted`). -/
def insertStr (x : String) : List String → List String
  | [] => [x]
  | y :: rest => if x ≤ y then x :: y :: rest else y :: insertStr x rest

/-- Sort a list of strings ascending. -/
def sortStrs (l : List String) : List String := l.foldr insertStr []

/-- The distinct command names executed by one run of `_run_json_commands`:
Python iterates `sorted(command_names)` over a `set`. -/
def executedCommands (names : List String) : List String := sortStrs names.dedup

/-- The body of one `_run_json_commands` iteration: run the shell string,
record a failure reason for a non-zero exit or undecodable stdout, else the
parsed payload. -/
def runOneJsonCommand (runner : String → RunnerOutput) (jparse : String → Except String Json)
    (cmd : String) : CmdResult :=
  let out := runner cmd
  let stdout := pyStrip out.stdout
  let stderr := pyStrip out.stderr
  if out.returncode ≠ 0 then
    .fail ("command failed with exit code " ++ toString out.returncode) stdout stderr
  else
    match jparse stdout with
    | .error msg => .fail ("stdout is not valid JSON: " ++ msg) stdout stderr
    | .ok payload => .ok payload stdout stderr

/-- `intent/cli.py: _run_json_commands` — run each distinct referenced command
once and memoize its outcome.  The subprocess and the JSON decoder are the
injected collaborators `runner` and `jparse` (`jparse`'s error is `e.msg`).
The name lookup into the command table cannot fail for loader-validated
configs (Python would raise `KeyError`); the default `""` is never used there. -/
def runJsonCommands (runner : String → RunnerOutput) (jparse : String → Except String Json)
    (commands : List (String × String)) (names : List String) : List (String × CmdResult) :=
  (executedCommands names).map (fun name =>
    (name, runOneJsonCommand runner jparse ((lookupAssoc commands name).getD "")))

/-- One evaluated assertion (the dict appended by `_run_check_assertions`). -/
structure AssertionResult where
  command : String
  path : String
  op : String
  expected : Json
  message : Option String
  ok : Bool
  actual : Option Json
  reason : Option String
  code : Option String
deriving Repr

/-- Evaluate one assertion against the memoized command results; `none`
models the `KeyError` Python would raise for an unexecuted command
(unreachable when the caller collected all referenced names). -/
def evalAssertion (crs : List (String × CmdResult)) (a : CheckAssertion) :
    Option AssertionResult :=
  match lookupAssoc crs a.command with
  | none => none
  | some (.fail err _ _) =>
    some { command := a.command, path := a.path, op := a.op, expected := a.value,
           message := a.message, ok := false, actual := none,
           reason := some err, code := some ERR_CHECK }
  | some (.ok payload _ _) =>
    match resolveJsonPath payload a.path with
    | (false, _, pathError) =>
      some { command := a.command, path := a.path, op := a.op, expected := a.value,
             message := a.message, ok := false, actual := none,
             reason := pathError, code := some ERR_CHECK }
    | (true, actualOpt, _) =>
      let actual := actualOpt.getD Json.null
      let res := compareAssertion actual a.op a.value
      some { command := a.command, path := a.path, op := a.op, expected := a.value,
             message := a.message, ok := res.1, actual := some actual,
             reason := res.2, code := if res.1 then none else some ERR_CHECK }

/-- `intent/cli.py: _run_check_assertions` (results in declaration order). -/
def runCheckAssertions (assertions : List CheckAssertion)
    (crs : List (String × CmdResult)) : List (Option AssertionResult) :=
  assertions.map (evalAssertion crs)

/-- Python `_is_number` (`int`/`float` but not `bool`). -/
def isNumberJson : Json → Bool
  | .num _ => true
  | _ => false

/-- `intent/cli.py: _apply_precision`.  Python rounds numeric values to the
given number of decimal places via `float`; integer payloads at nonnegative
precision round to themselves, so on this model the numeric case is the
identity. -/
def applyPrecision (value : Json) (precision : Option Nat) : Json :=
  match precision with
  | none => value
  | some _ => value

/-- Underlying integer of a numeric JSON value. -/
def jsonNum : Json → Int
  | .num n => n
  | _ => 0

/-- One evaluated summary metric (the dict appended by
`_evaluate_summary_metrics`). -/
structure MetricResult where
  label : String
  command : String
  path : String
  baselinePath : Option String
  precision : Option Nat
  ok : Bool
  value : Option Json
  baseline : Option Json
  delta : Option Json
  reason : Option String
  code : Option String
deriving Repr

/-- Evaluate one summary metric against the memoized command results
(`none` models Python `KeyError` for an unexecuted command).  The delta of
two numeric values is their difference (Python computes it in `float`;
integer payloads subtract exactly). -/
def evalMetric (crs : List (String × CmdResult)) (m : CiSummaryMetric) :
    Option MetricResult :=
  match lookupAssoc crs m.command with
  | none => none
  | some (.fail err _ _) =>
    some { label := m.label, command := m.command, path := m.path,
           baselinePath := m.baselinePath, precision := m.precision,
           ok := false, value := none, baseline := none, delta := none,
           reason := some err, code := some ERR_CHECK }
  | some (.ok payload _ _) =>
    match resolveJsonPath payload m.path with
    | (false, _, valueError) =>
      some { label := m.label, command := m.command, path := m.path,
             baselinePath := m.baselinePath, precision := m.precision,
             ok := false, value := none, baseline := none, delta := none,
             reason := valueError, code := some ERR_CHECK }
    | (true, valueOpt, _) =>
      let value := valueOpt.getD Json.null
      match m.baselinePath with
      | some bp =>
        match resolveJsonPath payload bp with
        | (false, _, baselineError) =>
          some { label := m.label, command := m.command, path := m.path,
                 baselinePath := m.baselinePath, precision := m.precision,
                 ok := false, value := some (applyPrecision value m.precision),
                 baseline := none, delta := none,
                 reason := baselineError, code := some ERR_CHECK }
        | (true, baselineOpt, _) =>
          let baseline := baselineOpt.getD Json.null
          if isNumberJson value && isNumberJson baseline then
            some { label := m.label, command := m.command, path := m.path,
                   baselinePath := m.baselinePath, precision := m.precision,
                   ok := true, value := some (applyPrecision value m.precision),
                   baseline := some (applyPrecision baseline m.precision),
                   delta := some (applyPrecision
                     (Json.num (jsonNum value - jsonNum baseline)) m.precision),
                   reason := none, code := none }
          else
            some { label := m.label, command := m.command, path := m.path,
                   baselinePath := m.baselinePath, precision := m.precision,
                   ok := true, value := some (applyPrecision value m.precision),
                   baseline := some (applyPrecision baseline m.precision),
                   delta := none,
                   reason := some "delta requires numeric value and baseline",
                   code := none }
      | none =>
        some { label := m.label, command := m.command, path := m.path,
               baselinePath := m.baselinePath, precision := m.precision,
               ok := true, value := some (applyPrecision value m.precision),
               baseline := none, delta := none, reason := none, code := none }

/-- `intent/cli.py: _evaluate_summary_metrics` (declaration order). -/
def evaluateSummaryMetrics (metrics : List CiSummaryMetric)
    (crs : List (String × CmdResult)) : List (Option MetricResult) :=
  metrics.map (evalMetric crs)

/-- The command names referenced by assertions and summary metrics, as
collected by the `check` command before calling `_run_json_commands`. -/
def referencedCommands (assertions : List CheckAssertion)
    (metrics : List CiSummaryMetric) : List String :=
  assertions.map (fun a => a.command) ++ metrics.map (fun m => m.command)

/-! ## Check gates

The repository's tests exercise `[checks.gates]` (`test_config.py`,
`test_cli_dry_run_and_check.py`, `test_cli_show.py`) but the loading and
evaluation code is not in the snapshot; the gate model below follows the
specification.
-/

/-- Modelled from the spec: gate kinds as a tagged variant (the gate
loading/evaluation code referenced by `cfg.checks_gates` in the tests is
absent from the snapshot).  `threshold` carries an upper bound and an
optional lower bound; `equals` carries an expected value. -/
inductive GateKind where
  | threshold (upper : Int) (lower : Option Int)
  | equals (value : Json)

/-- Modelled from the spec: `CheckGate` — (name, kind, command-name,
json-path, kind-specific bounds/value). -/
structure CheckGate where
  name : Option String
  command : String
  path : String
  kind : GateKind

/-- Result of evaluating one gate. -/
structure GateResult where
  ok : Bool
  value : Option Json
  reason : Option String

/-- Modelled from the spec: gate evaluation (code absent from the snapshot).
Gates are evaluated over the same memoized per-command results as
assertions; a command-level failure shares that command's reason verbatim;
`threshold` passes iff the resolved numeric value is at most the upper
bound and, when a lower bound is given, at least it; `equals` passes iff
the resolved value equals the expected value. -/
def evalGate (crs : List (String × CmdResult)) (g : CheckGate) : Option GateResult :=
  match lookupAssoc crs g.command with
  | none => none
  | some (.fail err _ _) => some { ok := false, value := none, reason := some err }
  | some (.ok payload _ _) =>
    match resolveJsonPath payload g.path with
    | (false, _, pathError) => some { ok := false, value := none, reason := pathError }
    | (true, valueOpt, _) =>
      let v := valueOpt.getD Json.null
      match g.kind with
      | .threshold upper lower =>
        match v with
        | .num n =>
          let pass := decide (n ≤ upper) && (match lower with
            | none => true
            | some lo => decide (lo ≤ n))
          some { ok := pass, value := some v,
                 reason := if pass then none else some "threshold not satisfied" }
        | _ =>
          some { ok := false, value := some v,
                 reason := some "threshold gate requires a numeric value" }
      | .equals expected =>
        let pass := pyEq v expected
        some { ok := pass, value := some v,
               reason := if pass then none else some "value does not equal expected" }

/-! ## Config loader fragment for check assertions (`intent/config.py`) -/

/-- `intent/config.py: CHECK_ASSERTION_OPERATORS`. -/
def CHECK_ASSERTION_OPERATORS : List String :=
  ["eq", "ne", "gt", "gte", "lt", "lte", "in", "not_in"]

/-- The sorted, comma-joined operator list used in loader error text. -/
def allowedOpsText : String := pyJoinSep ", " (sortStrs CHECK_ASSERTION_OPERATORS)

/-- Error text for one assertion field. -/
def assertionFieldMsg (cfgPath : String) (idx : Nat) (fieldSuffix detail : String) : String :=
  cfgPath ++ ": invalid [checks].assertions[" ++ toString idx ++ "]" ++ fieldSuffix ++ " " ++ detail

/-- The tail of the per-assertion validation: the optional `message` field,
then the accepted `CheckAssertion`. -/
def validateAssertionMessage (cfgPath : String) (idx : Nat)
    (fields : List (String × Json)) (command path op : String) (value : Json) :
    Except String CheckAssertion :=
  match lookupField fields "message" with
  | none => .ok { command := command, path := path, op := op, value := value, message := none }
  | some (.str rawMessage) =>
    if pyStrip rawMessage = "" then
      .error (assertionFieldMsg cfgPath idx ".message" "(expected non-empty string)")
    else
      .ok { command := command, path := path, op := op, value := value,
            message := some (pyStrip rawMessage) }
  | some _ =>
    .error (assertionFieldMsg cfgPath idx ".message" "(expected non-empty string)")

/-- `intent/config.py: load_intent`, the validation of one entry of
`[checks].assertions` (raw TOML values are represented by the same closed
variant as JSON payloads).  Mirrors the source checks in order: table shape,
`command` (non-empty string, declared), `path`, `op` (whitelist), required
`value` (an array when `op` is `in`/`not_in`), optional `message`. -/
def validateAssertion (cfgPath : String) (commands : List (String × String)) (idx : Nat)
    (raw : Json) : Except String CheckAssertion :=
  match raw with
  | .obj fields =>
    match lookupField fields "command" with
    | some (.str rawCommand) =>
      if pyStrip rawCommand = "" then
        .error (assertionFieldMsg cfgPath idx ".command" "(expected non-empty string)")
      else if (lookupAssoc commands (pyStrip rawCommand)).isNone then
        .error (assertionFieldMsg cfgPath idx ".command"
          ("(unknown command " ++ pyReprStr (pyStrip rawCommand) ++ ")"))
      else
        match lookupField fields "path" with
        | some (.str rawPath) =>
          if pyStrip rawPath = "" then
            .error (assertionFieldMsg cfgPath idx ".path" "(expected non-empty string)")
          else
            match lookupField fields "op" with
            | some (.str rawOp) =>
              if pyStrip rawOp = "" then
                .error (assertionFieldMsg cfgPath idx ".op" "(expected non-empty string)")
              else if !CHECK_ASSERTION_OPERATORS.contains (pyStrip rawOp) then
                .error (assertionFieldMsg cfgPath idx ".op"
                  ("(expected one of " ++ allowedOpsText ++ ", got " ++
                    pyReprStr (pyStrip rawOp) ++ ")"))
              else
                match lookupField fields "value" with
                | none =>
                  .error (assertionFieldMsg cfgPath idx ".value" "(field is required)")
                | some expectedValue =>
                  if pyStrip rawOp = "in" || pyStrip rawOp = "not_in" then
                    match expectedValue with
                    | .arr items =>
                      validateAssertionMessage cfgPath idx fields (pyStrip rawCommand)
                        (pyStrip rawPath) (pyStrip rawOp) (.arr items)
                    | _ =>
                      .error (assertionFieldMsg cfgPath idx ".value"
                        ("(expected array for op=" ++ pyReprStr (pyStrip rawOp) ++ ")"))
                  else
                    validateAssertionMessage cfgPath idx fields (pyStrip rawCommand)
                      (pyStrip rawPath) (pyStrip rawOp) expectedValue
            | some _ => .error (assertionFieldMsg cfgPath idx ".op" "(expected non-empty string)")
            | none => .error (assertionFieldMsg cfgPath idx ".op" "(expected non-empty string)")
        | some _ => .error (assertionFieldMsg cfgPath idx ".path" "(expected non-empty string)")
        | none => .error (assertionFieldMsg cfgPath idx ".path" "(expected non-empty string)")
    | some _ => .error (assertionFieldMsg cfgPath idx ".command" "(expected non-empty string)")
    | none => .error (assertionFieldMsg cfgPath idx ".command" "(expected non-empty string)")
  | _ =>
    .error (cfgPath ++ ": invalid [checks].assertions[" ++ toString idx ++
      "] (expected table/object)")

/-! ## Ownership-gated file writes and the CI renderer

`intent/fs.py` is absent from the snapshot; `GENERATED_MARKER`,
`OwnershipError` and `write_generated_file` are modelled from spec section
4.2 and the behavior pinned by `src/tests/test_fs.py`.  The filesystem is an
association list from path to content.
-/

/-- A filesystem snapshot: path to content bindings. -/
abbrev FS := List (String × String)

/-- Overwrite or append one binding. -/
def fsUpdate (fs : FS) (k v : String) : FS :=
  match fs with
  | [] => [(k, v)]
  | kv :: rest => if kv.1 = k then (k, v) :: rest else kv :: fsUpdate rest k v

/-- Modelled from the spec: the fixed ownership marker token defined in the
absent `intent/fs.py`.  Generated files begin with it; a file is tool-owned
iff its content contains it.  The concrete text is immaterial. -/
def GENERATED_MARKER : String := "# @generated by intent"

/-- Write mode of the ownership gate. -/
inductive WriteMode where
  | strict
  | adopt
  | force
deriving Repr, DecidableEq

/-- Outcome of a successful ownership-gated write. -/
inductive WriteOutcome where
  | created
  | updated
  | unchanged
deriving Repr, DecidableEq

/-- Failure of an ownership-gated write: content without the marker
(`ValueError`, fail-fast before I/O) or a refusal to overwrite foreign
content (`OwnershipError`). -/
inductive WriteFailure where
  | valueError (msg : String)
  | ownership (msg : String)
deriving Repr, DecidableEq

/-- Modelled from the spec: `intent/fs.py: write_generated_file`.  Fails fast
when `content` lacks the marker; creates absent files; leaves byte-equal
files unchanged; overwrites differing files when forced or when the existing
content is tool-owned; otherwise raises `OwnershipError` naming the path. -/
def write_generated_file (fs : FS) (pathStr content : String) (mode : WriteMode) :
    Except WriteFailure (WriteOutcome × FS) :=
  if !pyContains content GENERATED_MARKER then
    .error (.valueError ("generated content is missing marker for " ++ pathStr))
  else
    match lookupAssoc fs pathStr with
    | none => .ok (.created, fsUpdate fs pathStr content)
    | some existing =>
      if existing = content then .ok (.unchanged, fs)
      else if mode = .force then .ok (.updated, fsUpdate fs pathStr content)
      else if pyContains existing GENERATED_MARKER then .ok (.updated, fsUpdate fs pathStr content)
      else .error (.ownership ("Refusing to overwrite non-generated file: " ++ pathStr ++
        " (mode=" ++ (match mode with | .strict => "strict" | .adopt => "adopt" | .force => "force") ++ ")"))

/-- A scalar TOML value as rendered by `_yaml_scalar` (floats are outside
the embedding; the loader admits str/int/float/bool). -/
inductive PyScalar where
  | s (v : String)
  | i (v : Int)
  | b (v : Bool)
deriving Repr, DecidableEq

/-- `intent/render_ci.py: _yaml_scalar`. -/
def yamlScalar : PyScalar → String
  | .b v => if v then "true" else "false"
  | .i v => toString v
  | .s v => "\"" ++ v ++ "\""

/-- `intent/config.py: CiStep` (optional dicts are lists; an empty list is
falsy like Python `None`/`{}`). -/
structure CiStep where
  name : Option String := none
  run : Option String := none
  command : Option String := none
  uses : Option String := none
  withArgs : List (String × String) := []
  ifCondition : Option String := none
  continueOnError : Bool := false
  workingDirectory : Option String := none
  env : List (String × String) := []
deriving Repr

/-- `intent/config.py: CiJob`. -/
structure CiJob where
  name : String
  runsOn : String := "ubuntu-latest"
  needs : List String := []
  ifCondition : Option String := none
  timeoutMinutes : Option Int := none
  continueOnError : Bool := false
  matrix : List (String × List PyScalar) := []
  steps : List CiStep := []
deriving Repr

/-- `intent/config.py: CiArtifact`. -/
structure CiArtifact where
  name : String
  path : String
  retentionDays : Option Int := none
  whenAttr : String := "always"
deriving Repr

/-- `intent/config.py: CiSummary`. -/
structure CiSummary where
  enabled : Bool := true
  title : String := "Intent CI Summary"
  includeAssertions : Bool := true
  metrics : List CiSummaryMetric := []
deriving Repr

/-- `intent/config.py: IntentConfig`, restricted to the fields the renderer
consumes (commands keep insertion order like Python dicts). -/
structure IntentConfig where
  pythonVersion : String
  commands : List (String × String)
  ciInstall : String := "-e .[dev]"
  ciCache : String := "none"
  ciPythonVersions : List String := []
  ciTriggers : List String := []
  ciJobs : List CiJob := []
  ciArtifacts : List CiArtifact := []
  ciSummary : Option CiSummary := none
deriving Repr

/-- Python truthiness of an optional string. -/
def truthy (o : Option String) : Bool := o.getD "" ≠ ""

/-- `intent/render_ci.py: _append_step` — the lines appended for one step.
Command-table lookups cannot fail for loader-validated configs. -/
def appendStep (step : CiStep) (commands : List (String × String)) (indent : String) :
    List String :=
  [indent ++ "-"]
  ++ (if truthy step.name then [indent ++ "  name: " ++ step.name.getD ""] else [])
  ++ (if truthy step.ifCondition then [indent ++ "  if: " ++ step.ifCondition.getD ""] else [])
  ++ (if step.continueOnError then [indent ++ "  continue-on-error: true"] else [])
  ++ (if truthy step.workingDirectory then
        [indent ++ "  working-directory: " ++ step.workingDirectory.getD ""] else [])
  ++ (if step.env.isEmpty then [] else
        (indent ++ "  env:") :: (sortStrs (step.env.map Prod.fst)).map (fun key =>
          indent ++ "    " ++ key ++ ": " ++ yamlScalar (.s ((lookupAssoc step.env key).getD ""))))
  ++ (if truthy step.uses then
        [indent ++ "  uses: " ++ step.uses.getD ""]
        ++ (if step.withArgs.isEmpty then [] else
              (indent ++ "  with:") :: (sortStrs (step.withArgs.map Prod.fst)).map (fun key =>
                indent ++ "    " ++ key ++ ": " ++
                  yamlScalar (.s ((lookupAssoc step.withArgs key).getD ""))))
      else
        let commandText := match step.run with
          | some r => r
          | none => (lookupAssoc commands (step.command.getD "")).getD ""
        (indent ++ "  run: |") :: (pySplitlines commandText).map (fun l => indent ++ "    " ++ l))

/-- `intent/render_ci.py: _append_custom_job`. -/
def appendCustomJob (job : CiJob) (commands : List (String × String)) : List String :=
  ["  " ++ job.name ++ ":", "    runs-on: " ++ job.runsOn]
  ++ (if truthy job.ifCondition then ["    if: " ++ job.ifCondition.getD ""] else [])
  ++ (if job.continueOnError then ["    continue-on-error: true"] else [])
  ++ (match job.timeoutMinutes with
      | some t => ["    timeout-minutes: " ++ toString t]
      | none => [])
  ++ (if job.needs.isEmpty then [] else
        ["    needs: [" ++ pyJoinSep ", " (sortStrs job.needs) ++ "]"])
  ++ (if job.matrix.isEmpty then [] else
        ["    strategy:", "      fail-fast: false", "      matrix:"]
        ++ (sortStrs (job.matrix.map Prod.fst)).map (fun key =>
             "        " ++ key ++ ": [" ++
               pyJoinSep ", " (((lookupAssoc job.matrix key).getD []).map yamlScalar) ++ "]"))
  ++ ["    steps:"]
  ++ (job.steps.map (fun st => appendStep st commands "      ")).flatten
  ++ [""]

/-- The `if:` expression for an artifact `when` value (`when_to_if`; the
loader restricts `when` to the three keys). -/
def whenToIf (w : String) : String :=
  if w = "always" then "$\x7b\x7b always() \x7d\x7d"
  else if w = "on-failure" then "$\x7b\x7b failure() \x7d\x7d"
  else "$\x7b\x7b success() \x7d\x7d"

/-- `intent/render_ci.py: _append_artifact_steps`. -/
def appendArtifactSteps (artifacts : List CiArtifact) (indent : String) : List String :=
  (artifacts.map (fun a =>
    [indent ++ "-",
     indent ++ "  name: Upload artifact: " ++ a.name,
     indent ++ "  if: " ++ whenToIf a.whenAttr,
     indent ++ "  uses: actions/upload-artifact@v4",
     indent ++ "  with:",
     indent ++ "    name: " ++ yamlScalar (.s a.name),
     indent ++ "    path: " ++ yamlScalar (.s a.path)]
    ++ (match a.retentionDays with
        | some d => [indent ++ "    retention-days: " ++ toString d]
        | none => []))).flatten

/-- The shell text of the synthesized summary step (`_summary_step`). -/
def summaryStepRun : String := pyJoinSep "\n"
  ["intent check --format json > intent-check.json || true",
   "python - <<\x27PY\x27",
   "import json",
   "from pathlib import Path",
   "payload = json.loads(Path(\x27intent-check.json\x27).read_text(encoding=\x27utf-8\x27))",
   "report = payload.get(\x27report\x27) or \x7b\x7d",
   "summary = report.get(\x27summary_markdown\x27)",
   "if summary:",
   "    github_summary = Path(\x27$\x7bGITHUB_STEP_SUMMARY\x7d\x27)",
   "    github_summary.write_text(summary + \x27\\n\x27, encoding=\x27utf-8\x27)",
   "PY"]

/-- `intent/render_ci.py: _summary_step`. -/
def summaryStep : CiStep :=
  { name := some "Write intent summary",
    ifCondition := some "$\x7b\x7b always() \x7d\x7d",
    run := some summaryStepRun }

/-- The upload step appended to each custom job for one artifact. -/
def uploadStepFor (a : CiArtifact) : CiStep :=
  { name := some ("Upload artifact: " ++ a.name),
    uses := some "actions/upload-artifact@v4",
    withArgs := [("name", a.name), ("path", a.path)]
      ++ (match a.retentionDays with
          | some d => [("retention-days", toString d)]
          | none => []),
    ifCondition := some (whenToIf a.whenAttr) }

/-- `intent/render_ci.py: render_ci` — render the workflow text. -/
def render_ci (cfg : IntentConfig) : String :=
  let headLines : List String :=
    [GENERATED_MARKER, "# DO NOT EDIT", "", "name: CI",
     "on: [" ++ pyJoinSep ", " (if cfg.ciTriggers.isEmpty then ["push"] else cfg.ciTriggers) ++ "]",
     "", "jobs:"]
  if !cfg.ciJobs.isEmpty then
    let jobLines := (cfg.ciJobs.map (fun job =>
      appendCustomJob { job with steps := job.steps ++ cfg.ciArtifacts.map uploadStepFor }
        cfg.commands)).flatten
    let summaryLines :=
      match cfg.ciSummary with
      | some s =>
        if s.enabled then
          appendCustomJob
            { name := "intent_summary",
              needs := sortStrs (cfg.ciJobs.map (fun j => j.name)),
              steps :=
                [{ uses := some "actions/checkout@v4" },
                 { uses := some "actions/setup-python@v5",
                   withArgs := [("python-version", cfg.pythonVersion)] },
                 { run := some "python -m pip install -U pip\npython -m pip install -e .[dev]" },
                 summaryStep] }
            cfg.commands
        else []
      | none => []
    pyRstrip (pyJoinSep "\n" (headLines ++ jobLines ++ summaryLines)) ++ "\n"
  else
    let defaultLines : List String :=
      ["  ci:", "    runs-on: ubuntu-latest"]
      ++ (if cfg.ciPythonVersions.isEmpty then [] else
            ["    strategy:", "      fail-fast: false", "      matrix:",
             "        python-version: [" ++
               pyJoinSep ", " (cfg.ciPythonVersions.map (fun v => "\"" ++ v ++ "\"")) ++ "]"])
      ++ ["    steps:", "      - uses: actions/checkout@v4",
          "      - uses: actions/setup-python@v5", "        with:"]
      ++ (if cfg.ciPythonVersions.isEmpty then
            ["          python-version: \"" ++ cfg.pythonVersion ++ "\""]
          else ["          python-version: $\x7b\x7b matrix.python-version \x7d\x7d"])
      ++ (if cfg.ciCache = "pip" then ["          cache: pip"] else [])
      ++ ["", "      - name: Install dependencies", "        run: |",
          "          python -m pip install -U pip",
          "          python -m pip install " ++ cfg.ciInstall, ""]
      ++ (cfg.commands.map (fun nc =>
            [("      - name: " ++ nc.1), "        run: |"]
            ++ (pySplitlines nc.2).map (fun l => "          " ++ l) ++ [""])).flatten
      ++ appendArtifactSteps cfg.ciArtifacts "      "
      ++ (match cfg.ciSummary with
          | some s => if s.enabled then appendStep summaryStep cfg.commands "      " else []
          | none => [])
    pyRstrip (pyJoinSep "\n" (headLines ++ defaultLines)) ++ "\n"

/-! ## Version cross-check (`intent/cli.py: _check_versions`) -/

/-- `intent/pyproject_reader.py: PyprojectPythonStatus`. -/
inductive PyStatus where
  | ok
  | fileMissing
  | projectMissing
  | requiresPythonMissing
  | invalid
deriving Repr, DecidableEq

/-- Modelled from the spec: `parse_pep440_version` is imported by
`intent/cli.py` from `intent/versioning.py` but not defined there; the
spec's VersionModel parses dotted version strings into VersionTuples, so the
function is modelled as `parse_version`. -/
def parse_pep440_version (s : String) : Option (List Nat) := parse_version s

/-- `intent/cli.py` passes the whole spec *string* to the list-typed
`max_lower_bound`; Python then iterates its characters, so each "clause" is
a one-character string. -/
def maxLowerBoundOnString (spec : String) : Option (List Nat) :=
  max_lower_bound (spec.data.map (fun ch => String.singleton ch))

/-- `intent/cli.py: _check_versions` — `(ok, message, code)`.  The pyproject
read result `(status, requires-python)` is supplied by the caller (the TOML
reader is a collaborator). -/
def checkVersions (status : PyStatus) (requiresPython : Option String)
    (cfgPython : String) (strict : Bool) : Bool × String × Option String :=
  match status with
  | .fileMissing =>
    (true, "note: pyproject.toml not found; version cross-check skipped", none)
  | .projectMissing =>
    (true, "note: pyproject.toml has no [project] table; version cross-check skipped", none)
  | .requiresPythonMissing =>
    (true, "note: [project].requires-python not set; version cross-check skipped", none)
  | .invalid =>
    if strict then (false, "invalid requires-python value in pyproject.toml", some ERR_VERSION)
    else (true, "note: invalid requires-python value; version cross-check skipped", none)
  | .ok =>
    match requiresPython with
    | none =>
      (true, "note: [project].requires-python not set; version cross-check skipped", none)
    | some rawSpec =>
      let spec := pyStrip rawSpec
      if !(spec.data.any (fun ch => ch = '<' || ch = '>' || ch = ',' || ch = '=')) then
        match parse_pep440_version spec with
        | none =>
          if strict then
            (false, "Unsupported requires_python spec (strict): " ++ spec, some ERR_VERSION)
          else (true, "note: Unsupported requires_python spec (skipping): " ++ spec, none)
        | some specVersion =>
          match parse_pep440_version cfgPython with
          | some cfgVersion =>
            if specVersion = cfgVersion then
              (true, "pyproject requires_python matches intent (" ++ spec ++ ")", none)
            else
              (false, "Version mismatch (simple spec): intent=" ++ cfgPython ++
                " vs pyproject=" ++ spec, some ERR_VERSION)
          | none =>
            (false, "Version mismatch (simple spec): intent=" ++ cfgPython ++
              " vs pyproject=" ++ spec, some ERR_VERSION)
      else
        match check_requires_python_range cfgPython spec with
        | some false =>
          (false, "Version mismatch (range): intent " ++ cfgPython ++
            " does not satisfy " ++ spec, some ERR_VERSION)
        | none =>
          if strict then
            (false, "Unsupported requires_python spec (strict): " ++ spec, some ERR_VERSION)
          else (true, "note: Unsupported requires_python spec (skipping): " ++ spec, none)
        | some true =>
          match parse_pep440_version cfgPython with
          | none =>
            (true, "note: could not parse intent python.version (" ++ cfgPython ++ ")", none)
          | some intentParsed =>
            match maxLowerBoundOnString spec with
            | some lower =>
              if pyLt lower intentParsed then
                let msg := "pyproject requires_python (" ++ spec ++
                  ") is broader than intent (" ++ cfgPython ++
                  "); consider tightening pyproject to match intent"
                if strict then (false, msg, some ERR_VERSION)
                else (true, "note: " ++ msg, none)
              else
                (true, "Version ok (range): intent " ++ cfgPython ++ " satisfies " ++ spec, none)
            | none =>
              (true, "Version ok (range): intent " ++ cfgPython ++ " satisfies " ++ spec, none)

/-! ## Reconcile (`intent/cli.py: reconcile` and its helpers) -/

/-- Stable machine code for mutually exclusive flags. -/
def ERR_USAGE_CONFLICT : String := "INTENT001"

/-- `intent/cli.py: _read_python_version_file`, over the file content. -/
def readPythonVersionFile (content : Option String) : Option String :=
  match content with
  | none => none
  | some raw =>
    let r := pyStrip raw
    if r = "" then none
    else
      let first := pyStrip ((pySplitlines r).headD "")
      if first = "" then none else some first

/-- The line scan of `_read_tool_versions_python`: the first non-comment
`python <value>` entry decides the result. -/
def toolVersionsScan : List String → Option String
  | [] => none
  | line :: rest =>
    let s := pyStrip line
    if s = "" || pyStartsWith s "#" then toolVersionsScan rest
    else
      let parts := pySplitWS s
      if 2 ≤ parts.length && parts.headD "" = "python" then
        let v := pyStrip ((parts.get? 1).getD "")
        if v = "" then none else some v
      else toolVersionsScan rest

/-- `intent/cli.py: _read_tool_versions_python`, over the file content. -/
def readToolVersionsPython (content : Option String) : Option String :=
  match content with
  | none => none
  | some text => toolVersionsScan (pySplitlines text)

/-- `intent/cli.py: _same_major_minor`. -/
def sameMajorMinor (lhs rhs : String) : Bool :=
  match parse_version lhs, parse_version rhs with
  | some l, some r => decide (2 ≤ l.length) && decide (2 ≤ r.length) && l.take 2 = r.take 2
  | _, _ => false

/-- `intent/cli.py: _next_minor`. -/
def nextMinor (version : String) : Option String :=
  match parse_version version with
  | some (ma :: mi :: _) => some (toString ma ++ "." ++ toString (mi + 1))
  | _ => none

/-- Python `str(...)` of an int tuple (`str((3, 12)) == "(3, 12)"`,
`str((3,)) == "(3,)"`). -/
def pyTupleStr : List Nat → String
  | [] => "()"
  | [x] => "(" ++ toString x ++ ",)"
  | xs => "(" ++ pyJoinSep ", " (xs.map toString) ++ ")"

/-- `intent/cli.py: _write_python_version`, over the file content:
`(changed, action, new content)`. -/
def writePythonVersionFile (content : Option String) (version : String) :
    Bool × String × String :=
  let newText := version ++ "\n"
  match content with
  | none => (true, "created", newText)
  | some existing =>
    if existing = newText then (false, "unchanged", existing) else (true, "updated", newText)

/-- The replacement scan of `_upsert_tool_versions_python`: `none` when no
`python` entry exists, `some none` when it already equals the new line,
`some (some ls)` for the rewritten lines. -/
def upsertTVGo (newLine : String) : List String → Option (Option (List String))
  | [] => none
  | line :: rest =>
    let s := pyStrip line
    if s = "" || pyStartsWith s "#" then
      match upsertTVGo newLine rest with
      | none => none
      | some none => some none
      | some (some ls) => some (some (line :: ls))
    else
      let parts := pySplitWS s
      if 2 ≤ parts.length && parts.headD "" = "python" then
        if s = newLine then some none else some (some (newLine :: rest))
      else
        match upsertTVGo newLine rest with
        | none => none
        | some none => some none
        | some (some ls) => some (some (line :: ls))

/-- `intent/cli.py: _upsert_tool_versions_python`, over the file content:
`(changed, action, new content)`. -/
def upsertToolVersionsPython (content : Option String) (version : String) :
    Bool × String × String :=
  let newLine := "python " ++ version
  match content with
  | none => (true, "created", newLine ++ "\n")
  | some text =>
    let lines := pySplitlines text
    match upsertTVGo newLine lines with
    | some none => (false, "unchanged", text)
    | some (some ls) => (true, "updated", pyJoinSep "\n" ls ++ "\n")
    | none =>
      let lines2 :=
        if !lines.isEmpty && pyStrip (lines.getLastD "") ≠ "" then lines ++ [""] else lines
      (true, "updated", pyJoinSep "\n" (lines2 ++ [newLine]) ++ "\n")

/-- The section-header regex `^\s*\[([^\[\]]+)\]\s*$` of
`_upsert_pyproject_requires_python`: the stripped group, if the line is a
bracketed header without inner brackets. -/
def sectionHeaderOf (line : String) : Option String :=
  let t := pyStrip line
  if pyStartsWith t "[" && t.data.getLast? = some ']' then
    let interior := (t.data.drop 1).dropLast
    if interior.isEmpty then none
    else if interior.any (fun c => c = '[' || c = ']') then none
    else some (pyStrip (String.mk interior))
  else none

/-- The header scan of `_upsert_pyproject_requires_python`: `(project_start,
project_end)`; a later `[project]` header moves the start, and the first
other header after a start ends the section. -/
def projectBoundsGo (lines : List String) (idx : Nat) (start : Option Nat) (total : Nat) :
    Option Nat × Nat :=
  match lines with
  | [] => (start, total)
  | line :: rest =>
    match sectionHeaderOf line with
    | none => projectBoundsGo rest (idx + 1) start total
    | some sec =>
      if sec = "project" then projectBoundsGo rest (idx + 1) (some idx) total
      else
        match start with
        | some _ => (start, idx)
        | none => projectBoundsGo rest (idx + 1) none total

/-- The in-section scan for an existing `requires-python` line. -/
def findRequiresIdx (lines : List String) (lo hi : Nat) : Option Nat :=
  ((List.range lines.length).filter (fun i => lo ≤ i && i < hi)).find? (fun i =>
    let s := pyStrip (lines.getD i "")
    pyStartsWith s "requires-python" && pyContains s "=")

/-- `intent/cli.py: _upsert_pyproject_requires_python`, over the file
content: `(changed, action, new content)`. -/
def upsertPyprojectRequiresPython (content : Option String) (newSpec : String) :
    Bool × String × String :=
  match content with
  | none =>
    (true, "created",
      "[project]\nname = \"REPLACE_ME\"\nversion = \"0.0.0\"\nrequires-python = \"" ++
        newSpec ++ "\"\n")
  | some text =>
    let lines := pySplitlines text
    let bounds := projectBoundsGo lines 0 none lines.length
    let newLine := "requires-python = \"" ++ newSpec ++ "\""
    match bounds.1 with
    | none =>
      let lines2 :=
        if !lines.isEmpty && pyStrip (lines.getLastD "") ≠ "" then lines ++ [""] else lines
      (true, "updated", pyJoinSep "\n" (lines2 ++ ["[project]", newLine]) ++ "\n")
    | some ps =>
      match findRequiresIdx lines (ps + 1) bounds.2 with
      | none =>
        (true, "updated",
          pyJoinSep "\n" (lines.take (ps + 1) ++ [newLine] ++ lines.drop (ps + 1)) ++ "\n")
      | some ri =>
        if pyStrip (lines.getD ri "") ≠ newLine then
          (true, "updated", pyJoinSep "\n" (lines.set ri newLine) ++ "\n")
        else (false, "unchanged", text)

/-- The three version-pinning files reconcile touches. -/
structure ReconcileFS where
  pyproject : Option String
  pythonVersionFile : Option String
  toolVersions : Option String
deriving Repr, DecidableEq

/-- Result of one reconcile invocation. -/
structure ReconcileOut where
  fs : ReconcileFS
  output : List String
  exitCode : Nat
deriving Repr, DecidableEq

/-- The pyproject.toml leg of `reconcile`: `(new content, lines, unresolved)`. -/
def reconcilePyprojectStep (applyMode allowExisting : Bool) (status : PyStatus)
    (pspec : Option String) (recommended target : String) (fsPy : Option String) :
    Option String × List String × Bool :=
  match status with
  | .fileMissing =>
    if applyMode then
      let r := upsertPyprojectRequiresPython fsPy recommended
      (some r.2.2,
       ["- pyproject.toml: " ++ r.2.1 ++ " ([project].requires-python=" ++ recommended ++ ")"],
       false)
    else
      (fsPy, ["- pyproject.toml: missing",
              "  action: create/update [project].requires-python = " ++ recommended], false)
  | .projectMissing =>
    if applyMode && allowExisting then
      let r := upsertPyprojectRequiresPython fsPy recommended
      (some r.2.2,
       ["- pyproject.toml: " ++ r.2.1 ++ " ([project].requires-python=" ++ recommended ++ ")"],
       false)
    else if applyMode then
      (fsPy, ["- pyproject.toml: skipped ([project] missing, use --allow-existing)"], true)
    else
      (fsPy, ["- pyproject.toml: [project] missing",
              "  action: add [project].requires-python = " ++ recommended], false)
  | .requiresPythonMissing =>
    if applyMode && allowExisting then
      let r := upsertPyprojectRequiresPython fsPy recommended
      (some r.2.2,
       ["- pyproject.toml: " ++ r.2.1 ++ " ([project].requires-python=" ++ recommended ++ ")"],
       false)
    else if applyMode then
      (fsPy, ["- pyproject.toml: skipped (requires-python missing, use --allow-existing)"], true)
    else
      (fsPy, ["- pyproject.toml: requires-python missing",
              "  action: add requires-python = " ++ recommended], false)
  | .invalid =>
    if applyMode then
      (fsPy, ["- pyproject.toml: invalid/unreadable",
              "  action: manual fix required before reconcile --apply"], true)
    else
      (fsPy, ["- pyproject.toml: invalid/unreadable",
              "  action: manual fix required before auto-reconcile"], false)
  | .ok =>
    let pspecStr := pspec.getD ""
    let inRange := check_requires_python_range target pspecStr
    let lower := maxLowerBoundOnString pspecStr
    let exactLowerMatch :=
      match lower with
      | some l => sameMajorMinor (pyTupleStr l) target
      | none => false
    if inRange = some true && exactLowerMatch then
      (fsPy, ["- pyproject.toml: aligned (requires-python=" ++ pspecStr ++ ")"], false)
    else if applyMode && allowExisting then
      let r := upsertPyprojectRequiresPython fsPy recommended
      (some r.2.2,
       ["- pyproject.toml: " ++ r.2.1 ++ " (requires-python=" ++ recommended ++ ")"], false)
    else if applyMode then
      (fsPy, ["- pyproject.toml: skipped (drift=" ++ pspecStr ++ ", use --allow-existing)"], true)
    else
      (fsPy, ["- pyproject.toml: drift (requires-python=" ++ pspecStr ++ ")",
              "  action: set requires-python = " ++ recommended], false)

/-- The `.python-version` leg of `reconcile`. -/
def reconcilePythonVersionStep (applyMode allowExisting : Bool) (target : String)
    (fsPv : Option String) : Option String × List String × Bool :=
  match readPythonVersionFile fsPv with
  | none =>
    if applyMode then
      let r := writePythonVersionFile fsPv target
      (some r.2.2, ["- .python-version: " ++ r.2.1 ++ " (" ++ target ++ ")"], false)
    else
      (fsPv, ["- .python-version: missing", "  action: write " ++ target], false)
  | some cur =>
    if sameMajorMinor cur target then
      (fsPv, ["- .python-version: aligned (" ++ cur ++ ")"], false)
    else if applyMode && allowExisting then
      let r := writePythonVersionFile fsPv target
      (some r.2.2, ["- .python-version: " ++ r.2.1 ++ " (" ++ target ++ ")"], false)
    else if applyMode then
      (fsPv, ["- .python-version: skipped (drift=" ++ cur ++ ", use --allow-existing)"], true)
    else
      (fsPv, ["- .python-version: drift (" ++ cur ++ ")",
              "  action: replace with " ++ target], false)

/-- The `.tool-versions` leg of `reconcile` (a missing file is created by
apply even without `--allow-existing`). -/
def reconcileToolVersionsStep (applyMode allowExisting : Bool) (target : String)
    (fsTv : Option String) : Option String × List String × Bool :=
  match readToolVersionsPython fsTv with
  | none =>
    if fsTv.isNone && applyMode then
      let r := upsertToolVersionsPython fsTv target
      (some r.2.2, ["- .tool-versions: " ++ r.2.1 ++ " (python " ++ target ++ ")"], false)
    else if applyMode && allowExisting then
      let r := upsertToolVersionsPython fsTv target
      (some r.2.2, ["- .tool-versions: " ++ r.2.1 ++ " (python " ++ target ++ ")"], false)
    else if applyMode then
      (fsTv, ["- .tool-versions: skipped (no python entry, use --allow-existing)"], true)
    else
      (fsTv, ["- .tool-versions: missing or no python entry",
              "  action: add `python " ++ target ++ "`"], false)
  | some cur =>
    if sameMajorMinor cur target then
      (fsTv, ["- .tool-versions: aligned (python " ++ cur ++ ")"], false)
    else if applyMode && allowExisting then
      let r := upsertToolVersionsPython fsTv target
      (some r.2.2, ["- .tool-versions: " ++ r.2.1 ++ " (python " ++ target ++ ")"], false)
    else if applyMode then
      (fsTv, ["- .tool-versions: skipped (drift=" ++ cur ++ ", use --allow-existing)"], true)
    else
      (fsTv, ["- .tool-versions: drift (python " ++ cur ++ ")",
              "  action: set `python " ++ target ++ "`"], false)

/-- `intent/cli.py: reconcile` — the three-file reconciliation planner.
`readPyproject` is the TOML-reading collaborator (`read_pyproject_python`
applied to the file content); `cfgPython` is `none` when loading
`intent.toml` failed (exit 2 before any work). -/
def reconcile (readPyproject : Option String → PyStatus × Option String)
    (cfgPython : Option String) (plan applyMode allowExisting : Bool)
    (fs : ReconcileFS) : ReconcileOut :=
  if plan = applyMode then
    { fs := fs,
      output := ["[" ++ ERR_USAGE_CONFLICT ++ "] Error: choose exactly one of --plan or --apply"],
      exitCode := 2 }
  else
    match cfgPython with
    | none => { fs := fs, output := ["config error"], exitCode := 2 }
    | some target =>
      let recommended :=
        match nextMinor target with
        | some nm => ">=" ++ target ++ ",<" ++ nm
        | none => ">=" ++ target
      let pyRead := readPyproject fs.pyproject
      let modeStr := if applyMode then "apply" else "plan"
      let header := ["--- reconcile " ++ modeStr ++ " ---",
                     "Target python version (from intent): " ++ target, ""]
      let s1 := reconcilePyprojectStep applyMode allowExisting pyRead.1 pyRead.2
        recommended target fs.pyproject
      let s2 := reconcilePythonVersionStep applyMode allowExisting target fs.pythonVersionFile
      let s3 := reconcileToolVersionsStep applyMode allowExisting target fs.toolVersions
      let unresolved := s1.2.2 || s2.2.2 || s3.2.2
      let tail :=
        if applyMode then
          if unresolved then
            ["", "Reconcile apply completed with skips. Re-run with `--allow-existing` where needed."]
          else ["", "Reconcile apply completed."]
        else ["", "No files were modified. Use `intent reconcile --apply` to apply changes."]
      { fs := { pyproject := s1.1, pythonVersionFile := s2.1, toolVersions := s3.1 },
        output := header ++ s1.2.1 ++ s2.2.1 ++ s3.2.1 ++ tail,
        exitCode := if applyMode && unresolved then 1 else 0 }

/-- A minimal loader-shaped config used to instantiate universally
quantified results on concrete input. -/
def sampleIntentConfig : IntentConfig :=
  { pythonVersion := "3.12", commands := [("test", "pytest -q")] }

/-! ## Lemmas about the version model -/

theorem pyLt_irrefl (l : List Nat) : pyLt l l = false := by
  induction l with
  | nil => rfl
  | cons a rest ih => simp [pyLt, ih]

theorem pyLt_trans : ∀ a b c : List Nat, pyLt a b = true → pyLt b c = true → pyLt a c = true := by
  intro a
  induction a with
  | nil =>
    intro b c hab hbc
    cases b with
    | nil => simp [pyLt] at hab
    | cons y ys =>
      cases c with
      | nil => simp [pyLt] at hbc
      | cons z zs => simp [pyLt]
  | cons x xs ih =>
    intro b c hab hbc
    cases b with
    | nil => simp [pyLt] at hab
    | cons y ys =>
      cases c with
      | nil => simp [pyLt] at hbc
      | cons z zs =>
        simp only [pyLt] at hab hbc ⊢
        by_cases hxy : x < y
        · by_cases hyz : y < z
          · have : x < z := Nat.lt_trans hxy hyz
            simp [this]
          · simp [hxy] at hab
            simp [hyz] at hbc
            rcases hbc with ⟨hy, _⟩
            subst hy
            simp [hxy]
        · simp [hxy] at hab
          rcases hab with ⟨hx, habs⟩
          subst hx
          by_cases hyz : x < z
          · simp [hyz]
          · simp [hyz] at hbc
            rcases hbc with ⟨hy, hbcs⟩
            subst hy
            simp [hyz, ih ys zs habs hbcs]

theorem pyLt_conn : ∀ a b : List Nat, pyLt a b = false → pyLt b a = false → a = b := by
  intro a
  induction a with
  | nil =>
    intro b hab _
    cases b with
    | nil => rfl
    | cons y ys => simp [pyLt] at hab
  | cons x xs ih =>
    intro b hab hba
    cases b with
    | nil => simp [pyLt] at hba
    | cons y ys =>
      simp only [pyLt] at hab hba
      by_cases hxy : x < y
      · simp [hxy] at hab
      · by_cases hyx : y < x
        · simp [hyx] at hba
        · have hx : x = y := Nat.le_antisymm (Nat.le_of_not_lt hyx) (Nat.le_of_not_lt hxy)
          subst hx
          simp [Nat.lt_irrefl] at hab hba
          rw [ih ys hab hba]

theorem parseVersionGo_eq (parts : List String) (acc : List Nat) :
    parseVersionGo acc parts =
      (let pfx := parts.takeWhile (fun p => p ≠ "")
       if pfx.all isDigitStr then
         (if (acc ++ pfx.map pyInt).isEmpty then none else some (acc ++ pfx.map pyInt))
       else none) := by
  induction parts generalizing acc with
  | nil => simp [parseVersionGo]
  | cons p rest ih =>
    by_cases hp : p = ""
    · subst hp
      simp [parseVersionGo, List.takeWhile_cons]
    · by_cases hd : isDigitStr p
      · simp only [parseVersionGo, hp, if_neg, hd, if_pos, List.takeWhile_cons, ite_true,
          ite_false, List.all_cons, List.map_cons, ih]
        simp [hp, hd, List.append_assoc]
      · simp [parseVersionGo, hp, hd, List.takeWhile_cons]

theorem foldl_clauseStep (v : List Nat) (cs : List String) (s ok : Bool) :
    cs.foldl (clauseStep v) (s, ok) =
      (s && cs.all codeClauseSupported,
       ok && cs.all (fun c => !codeClauseSupported c || clauseHolds v c)) := by
  induction cs generalizing s ok with
  | nil => simp
  | cons c rest ih =>
    simp only [List.foldl_cons, List.all_cons]
    by_cases h1 : pyStartsWith c ">="
    · cases hp : parse_version (pyStrip (pyDropChars 2 c)) with
      | none =>
        rw [show clauseStep v (s, ok) c = (false, ok) by simp [clauseStep, h1, hp]]
        rw [ih]
        simp [codeClauseSupported, clauseHolds, h1, hp]
      | some bound =>
        by_cases hlt : pyLt v bound
        · rw [show clauseStep v (s, ok) c = (s, false) by simp [clauseStep, h1, hp, hlt]]
          rw [ih]
          simp [codeClauseSupported, clauseHolds, h1, hp, hlt]
        · rw [show clauseStep v (s, ok) c = (s, ok) by simp [clauseStep, h1, hp, hlt]]
          rw [ih]
          simp [codeClauseSupported, clauseHolds, h1, hp, hlt]
    · by_cases h2 : pyStartsWith c "<"
      · cases hp : parse_version (pyStrip (pyDropChars 1 c)) with
        | none =>
          rw [show clauseStep v (s, ok) c = (false, ok) by simp [clauseStep, h1, h2, hp]]
          rw [ih]
          simp [codeClauseSupported, clauseHolds, h1, h2, hp]
        | some bound =>
          by_cases hlt : pyLt v bound
          · rw [show clauseStep v (s, ok) c = (s, ok) by simp [clauseStep, h1, h2, hp, hlt]]
            rw [ih]
            simp [codeClauseSupported, clauseHolds, h1, h2, hp, hlt]
          · rw [show clauseStep v (s, ok) c = (s, false) by simp [clauseStep, h1, h2, hp, hlt]]
            rw [ih]
            simp [codeClauseSupported, clauseHolds, h1, h2, hp, hlt]
      · rw [show clauseStep v (s, ok) c = (false, ok) by simp [clauseStep, h1, h2]]
        rw [ih]
        simp [codeClauseSupported, clauseHolds, h1, h2]

theorem all_or_of_all {l : List String} {p q : String → Bool} (h : l.all p = true) :
    l.all (fun c => !p c || q c) = l.all q := by
  induction l with
  | nil => rfl
  | cons c rest ih =>
    simp only [List.all_cons, Bool.and_eq_true] at h
    simp [List.all_cons, h.1, ih h.2]

theorem maxLowerBoundGo_eq_pickMax (cs : List String) (best : Option (List Nat)) :
    maxLowerBoundGo best cs = pickMax best (geBounds cs) := by
  induction cs generalizing best with
  | nil => simp [maxLowerBoundGo, geBounds, pickMax]
  | cons c rest ih =>
    by_cases h1 : pyStartsWith (pyStrip c) ">="
    · cases hp : parse_version (pyStrip (pyDropChars 2 (pyStrip c))) with
      | none =>
        have hL : maxLowerBoundGo best (c :: rest) = maxLowerBoundGo best rest := by
          simp [maxLowerBoundGo, h1, hp]
        have hR : geBounds (c :: rest) = geBounds rest := by
          simp [geBounds, List.filterMap_cons, h1, hp]
        rw [hL, hR]
        exact ih best
      | some bound =>
        have hR : geBounds (c :: rest) = bound :: geBounds rest := by
          simp [geBounds, List.filterMap_cons, h1, hp]
        cases best with
        | none =>
          have hL : maxLowerBoundGo none (c :: rest) = maxLowerBoundGo (some bound) rest := by
            simp [maxLowerBoundGo, h1, hp]
          rw [hL, hR]
          simp only [pickMax]
          exact ih (some bound)
        | some m =>
          by_cases hlt : pyLt m bound
          · have hL : maxLowerBoundGo (some m) (c :: rest) =
                maxLowerBoundGo (some bound) rest := by
              simp [maxLowerBoundGo, h1, hp, hlt]
            rw [hL, hR]
            simp only [pickMax, hlt, if_pos]
            exact ih (some bound)
          · have hL : maxLowerBoundGo (some m) (c :: rest) =
                maxLowerBoundGo (some m) rest := by
              simp [maxLowerBoundGo, h1, hp, hlt]
            rw [hL, hR]
            simp only [pickMax, hlt, if_neg, if_false]
            exact ih (some m)
    · have hL : maxLowerBoundGo best (c :: rest) = maxLowerBoundGo best rest := by
        simp [maxLowerBoundGo, h1]
      have hR : geBounds (c :: rest) = geBounds rest := by
        simp [geBounds, List.filterMap_cons, h1]
      rw [hL, hR]
      exact ih best

theorem pickMax_some_isSome (l : List (List Nat)) (m : List Nat) :
    (pickMax (some m) l).isSome = true := by
  induction l generalizing m with
  | nil => rfl
  | cons b rest ih =>
    simp only [pickMax]
    by_cases hlt : pyLt m b <;> simp [hlt, ih]

theorem pickMax_spec (l : List (List Nat)) (m b : List Nat)
    (h : pickMax (some m) l = some b) :
    (b = m ∨ b ∈ l) ∧ pyLt b m = false ∧ ∀ x ∈ l, pyLt b x = false := by
  induction l generalizing m with
  | nil =>
    simp only [pickMax, Option.some.injEq] at h
    subst h
    exact ⟨Or.inl rfl, pyLt_irrefl m, by simp⟩
  | cons c rest ih =>
    simp only [pickMax] at h
    by_cases hlt : pyLt m c
    · rw [if_pos hlt] at h
      obtain ⟨hmem, hbc, hall⟩ := ih c h
      have hbm : pyLt b m = false := by
        by_cases hbm2 : pyLt b m = true
        · have := pyLt_trans b m c hbm2 hlt
          rw [this] at hbc
          exact absurd hbc (by simp)
        · exact Bool.eq_false_iff.mpr (fun hx => hbm2 hx)
      refine ⟨?_, hbm, ?_⟩
      · rcases hmem with hbc2 | hmem2
        · exact Or.inr (by simp [hbc2])
        · exact Or.inr (List.mem_cons_of_mem _ hmem2)
      · intro x hx
        rcases List.mem_cons.mp hx with hxc | hxr
        · subst hxc
          exact hbc
        · exact hall x hxr
    · rw [if_neg hlt] at h
      obtain ⟨hmem, hbm, hall⟩ := ih m h
      have hlt2 : pyLt m c = false := Bool.eq_false_iff.mpr (fun hx => hlt hx)
      have hbc : pyLt b c = false := by
        rcases hmem with hbm2 | hmem2
        · subst hbm2
          exact hlt2
        · by_cases hbc2 : pyLt b c = true
          · rcases Bool.eq_false_or_eq_true (pyLt m b) with hmb | hmb
            · have := pyLt_trans m b c hmb hbc2
              rw [this] at hlt2
              exact absurd hlt2 (by simp)
            · have hme := pyLt_conn m b hmb hbm
              subst hme
              rw [hbc2] at hlt2
              exact absurd hlt2 (by simp)
          · exact Bool.eq_false_iff.mpr (fun hx => hbc2 hx)
      refine ⟨?_, hbm, ?_⟩
      · rcases hmem with hbm2 | hmem2
        · exact Or.inl hbm2
        · exact Or.inr (List.mem_cons_of_mem _ hmem2)
      · intro x hx
        rcases List.mem_cons.mp hx with hxc | hxr
        · subst hxc
          exact hbc
        · exact hall x hxr

theorem pickMax_none_iff (l : List (List Nat)) : pickMax none l = none ↔ l = [] := by
  cases l with
  | nil => simp [pickMax]
  | cons b rest =>
    simp only [pickMax]
    constructor
    · intro h
      have := pickMax_some_isSome rest b
      rw [h] at this
      simp at this
    · intro h
      simp at h

/-! ## Claim C1 -/

/-- C1 counterexample: the claim says the check is UNSUPPORTED iff some
clause's operator lies outside `{==,>=,>,<,<=,~=}`.  The spec `"==3.12"`
has its only clause headed by `==` — inside that set — yet
`check_requires_python_range` returns `none` (UNSUPPORTED); the claim would
force a non-`none` result here. -/
theorem check_requires_python_range_eq_unsupported_counterexample :
    ((specClauses "==3.12").all specClauseOperatorSupported = true) ∧
    check_requires_python_range "3.12" "==3.12" = none :=
  ⟨rfl, rfl⟩

/-- C1 (amended): `check_requires_python_range V S` is UNSUPPORTED (`none`)
iff `V` does not parse, or `S` has no non-empty clauses, or some clause is
not `>=`/`<` followed by a parseable version (in particular `==`, `>`,
`<=`, `~=` clauses are unsupported); otherwise it is the conjunction of the
per-clause comparisons of `V` (Python tuple order) against each bound
(`>=`: not below the bound; `<`: below the bound). -/
theorem check_requires_python_range_characterization (V S : String) :
    check_requires_python_range V S =
      (match parse_version V with
       | none => none
       | some v =>
         if (specClauses S).isEmpty then none
         else if (specClauses S).all codeClauseSupported then
           some ((specClauses S).all (clauseHolds v))
         else none) := by
  unfold check_requires_python_range
  cases hv : parse_version V with
  | none => rfl
  | some v =>
    show (if (specClauses S).isEmpty then none
          else if ((specClauses S).foldl (clauseStep v) (true, true)).1 = true then
            some ((specClauses S).foldl (clauseStep v) (true, true)).2
          else none) = _
    rw [foldl_clauseStep]
    dsimp only
    by_cases he : (specClauses S).isEmpty
    · rw [if_pos he, if_pos he]
    · rw [if_neg he, if_neg he]
      by_cases hs : (specClauses S).all codeClauseSupported
      · rw [if_pos (by simp [hs] : (true && (specClauses S).all codeClauseSupported) = true)]
        rw [if_pos hs]
        rw [all_or_of_all hs]
        simp
      · rw [if_neg (by simp [hs] :
          ¬(true && (specClauses S).all codeClauseSupported) = true)]
        rw [if_neg hs]

/-! ## Claim C8 -/

/-- C8 counterexample: the claim says a string with an empty dot-part (such
as `"3."` or `"3..12"`) fails; the code instead breaks at the first empty
part and returns the truncated tuple `(3,)`. -/
theorem parse_version_truncates_at_empty_part :
    parse_version "3." = some [3] ∧ parse_version "3..12" = some [3] :=
  ⟨rfl, rfl⟩

/-- C8 (amended): `parse_version s` fails exactly when the stripped string
is empty, or the first dot-part is empty, or some part before the first
empty part is not a non-negative integer literal; otherwise it returns the
parts before the first empty part (so `"3."` and `"3..12"` yield `(3,)`
rather than failing). -/
theorem parse_version_characterization (s : String) :
    parse_version s =
      (if pyStrip s = "" then none
       else
         let pfx := ((pySplit '.' (pyStrip s)).map pyStrip).takeWhile (fun p => p ≠ "")
         if pfx.isEmpty then none
         else if pfx.all isDigitStr then some (pfx.map pyInt) else none) := by
  unfold parse_version
  by_cases h : pyStrip s = ""
  · simp [h]
  · simp only [h, if_neg, if_false]
    rw [parseVersionGo_eq]
    simp only [List.nil_append]
    by_cases hall : (((pySplit '.' (pyStrip s)).map pyStrip).takeWhile
        (fun p => p ≠ "")).all isDigitStr
    · simp only [hall, if_pos, if_true]
      cases hp : ((pySplit '.' (pyStrip s)).map pyStrip).takeWhile (fun p => p ≠ "") with
      | nil => simp [hp] at hall ⊢
      | cons q qs => simp [hp]
    · simp only [hall, if_neg, if_false, Bool.false_eq_true]
      cases hp : ((pySplit '.' (pyStrip s)).map pyStrip).takeWhile (fun p => p ≠ "") with
      | nil =>
        rw [hp] at hall
        simp at hall
      | cons q qs =>
        rw [hp] at hall
        simp [hp, hall]

/-! ## Claim C9 -/

/-- C9 counterexample: the claim says `max_lower_bound` takes the maximum
over all `>=` *and* `>` clauses, so a spec whose only lower bound is strict
(`">3.10"`) should yield that bound; the code only considers `>=` clauses
and returns `none` there, though the spec-described per-clause bound of
`">3.10"` is `(3, 10)`. -/
theorem max_lower_bound_ignores_strict_gt :
    max_lower_bound [">3.10"] = none ∧ specLowerBoundOf ">3.10" = some [3, 10] :=
  ⟨rfl, rfl⟩

/-- C9 (amended): `max_lower_bound` returns `none` iff no clause is `>=`
with a parseable bound, and any returned bound is one of the `>=` bounds
and maximal among them in Python tuple order; `>` clauses are ignored. -/
theorem max_lower_bound_characterization (cs : List String) :
    (max_lower_bound cs = none ↔ geBounds cs = []) ∧
    (∀ b, max_lower_bound cs = some b →
      b ∈ geBounds cs ∧ ∀ x ∈ geBounds cs, pyLt b x = false) := by
  constructor
  · rw [show max_lower_bound cs = pickMax none (geBounds cs) from
      maxLowerBoundGo_eq_pickMax cs none]
    exact pickMax_none_iff (geBounds cs)
  · intro b hb
    rw [show max_lower_bound cs = pickMax none (geBounds cs) from
      maxLowerBoundGo_eq_pickMax cs none] at hb
    cases hg : geBounds cs with
    | nil =>
      rw [hg] at hb
      simp [pickMax] at hb
    | cons g rest =>
      rw [hg] at hb
      simp only [pickMax] at hb
      obtain ⟨hmem, hbg, hall⟩ := pickMax_spec rest g b hb
      constructor
      · rcases hmem with h1 | h2
        · exact List.mem_cons.mpr (Or.inl h1)
        · exact List.mem_cons_of_mem _ h2
      · intro x hx
        rcases List.mem_cons.mp hx with h1 | h2
        · subst h1
          exact hbg
        · exact hall x h2

/-- C9 witness: at `[">=3.10", ">=3.12", "<3.13"]` the returned bound is
`(3, 12)`, a member of the `>=` bounds and maximal among them. -/
theorem max_lower_bound_characterization_witness :
    max_lower_bound [">=3.10", ">=3.12", "<3.13"] = some [3, 12] ∧
    [3, 12] ∈ geBounds [">=3.10", ">=3.12", "<3.13"] ∧
    ∀ x ∈ geBounds [">=3.10", ">=3.12", "<3.13"], pyLt [3, 12] x = false := by
  have h := (max_lower_bound_characterization [">=3.10", ">=3.12", "<3.13"]).2 [3, 12] rfl
  exact ⟨rfl, h.1, h.2⟩

/-! ## Claim C5 -/

theorem singleton_clause_not_ge (c : Char) :
    pyStartsWith (pyStrip (String.singleton c)) ">=" = false := by
  by_cases h : pyIsSpace c
  · simp [String.singleton, pyStrip, stripChars, pyStartsWith, h, List.dropWhile,
      List.isPrefixOf]
  · simp [String.singleton, pyStrip, stripChars, pyStartsWith, h, List.dropWhile,
      List.isPrefixOf]

theorem maxLowerBoundGo_singletons (cs : List Char) (best : Option (List Nat)) :
    maxLowerBoundGo best (cs.map String.singleton) = best := by
  induction cs generalizing best with
  | nil => rfl
  | cons c rest ih =>
    simp only [List.map_cons, maxLowerBoundGo, singleton_clause_not_ge, Bool.false_eq_true,
      if_neg, if_false]
    exact ih best

/-- C5: the claim (and the repo's own tests `test_version_precision.py`)
say a compatible-but-broader external spec is classified BROADER — a
warning off strict, a failure under strict.  But `_check_versions` passes
the spec *string* to the list-typed `max_lower_bound`, which iterates its
characters and never finds a `>=` clause, so the lower bound is always
`None`, the BROADER branch is unreachable, and the cross-check reports
plain success at the claim's own scenario (declared `"3.12"`, spec
`">=3.11,<3.13"`) in both modes.  (`intent/cli.py` also imports
`parse_pep440_version`, which `intent/versioning.py` does not define.) -/
theorem checkVersions_broader_branch_unreachable :
    (∀ spec : String, maxLowerBoundOnString spec = none) ∧
    checkVersions .ok (some ">=3.11,<3.13") "3.12" false =
      (true, "Version ok (range): intent 3.12 satisfies >=3.11,<3.13", none) ∧
    checkVersions .ok (some ">=3.11,<3.13") "3.12" true =
      (true, "Version ok (range): intent 3.12 satisfies >=3.11,<3.13", none) := by
  refine ⟨?_, rfl, rfl⟩
  intro spec
  exact maxLowerBoundGo_singletons spec.data none

/-! ## Claim C7 -/

theorem resolveJsonPathGo_shape (tokens : List PathToken) (payload : Json) :
    (∃ v, resolveJsonPathGo payload tokens = (true, some v, none)) ∨
    (∃ msg, resolveJsonPathGo payload tokens = (false, none, some msg)) := by
  induction tokens generalizing payload with
  | nil => exact Or.inl ⟨payload, rfl⟩
  | cons t rest ih =>
    cases t with
    | key k =>
      cases payload with
      | obj fields =>
        cases h : lookupField fields k with
        | none =>
          exact Or.inr ⟨"path segment " ++ pyReprStr k ++ " missing", by
            simp [resolveJsonPathGo, h]⟩
        | some v =>
          have hgo : resolveJsonPathGo (Json.obj fields) (PathToken.key k :: rest) =
              resolveJsonPathGo v rest := by
            simp [resolveJsonPathGo, h]
          rw [hgo]
          exact ih v
      | null => exact Or.inr ⟨_, rfl⟩
      | bool b => exact Or.inr ⟨_, rfl⟩
      | num n => exact Or.inr ⟨_, rfl⟩
      | str s => exact Or.inr ⟨_, rfl⟩
      | arr items => exact Or.inr ⟨_, rfl⟩
    | idx i =>
      cases payload with
      | arr items =>
        cases h : items[i]? with
        | none =>
          exact Or.inr ⟨"path index [" ++ toString i ++ "] out of range", by
            simp [resolveJsonPathGo, h]⟩
        | some v =>
          have hgo : resolveJsonPathGo (Json.arr items) (PathToken.idx i :: rest) =
              resolveJsonPathGo v rest := by
            simp [resolveJsonPathGo, h]
          rw [hgo]
          exact ih v
      | null => exact Or.inr ⟨_, rfl⟩
      | bool b => exact Or.inr ⟨_, rfl⟩
      | num n => exact Or.inr ⟨_, rfl⟩
      | str s => exact Or.inr ⟨_, rfl⟩
      | obj fields => exact Or.inr ⟨_, rfl⟩

/-- C7: JSON-path resolution is all-or-nothing.  Against
`{"a":{"b":[10,20]}}`, `"a.b[0]"` resolves to `10`; `"a.b[5]"` fails with
the out-of-range reason and no value; and for every payload and path the
result is either a found value with no error or a failure with a
descriptive reason and no value — never a partial result. -/
theorem resolveJsonPath_all_or_nothing :
    resolveJsonPath (Json.obj [("a", Json.obj [("b", Json.arr [Json.num 10, Json.num 20])])])
        "a.b[0]" = (true, some (Json.num 10), none) ∧
    resolveJsonPath (Json.obj [("a", Json.obj [("b", Json.arr [Json.num 10, Json.num 20])])])
        "a.b[5]" = (false, none, some "path index [5] out of range") ∧
    ∀ (payload : Json) (path : String),
      (∃ v, resolveJsonPath payload path = (true, some v, none)) ∨
      (∃ msg, resolveJsonPath payload path = (false, none, some msg)) := by
  refine ⟨rfl, rfl, ?_⟩
  intro payload path
  unfold resolveJsonPath
  cases jsonPathTokens path with
  | error e => exact Or.inr ⟨e, rfl⟩
  | ok tokens => exact resolveJsonPathGo_shape tokens payload

/-! ## Claim C2 -/

theorem mem_insertStr {a x : String} {l : List String} :
    a ∈ insertStr x l ↔ a = x ∨ a ∈ l := by
  induction l with
  | nil => simp [insertStr]
  | cons y rest ih =>
    by_cases h : x ≤ y
    · simp [insertStr, h]
    · simp only [insertStr, h, if_neg, if_false, List.mem_cons, ih]
      tauto

theorem nodup_insertStr {x : String} {l : List String} (hx : x ∉ l) (h : l.Nodup) :
    (insertStr x l).Nodup := by
  induction l with
  | nil => simp [insertStr]
  | cons y rest ih =>
    rw [List.nodup_cons] at h
    by_cases hle : x ≤ y
    · rw [show insertStr x (y :: rest) = x :: y :: rest by simp [insertStr, hle]]
      exact List.nodup_cons.mpr ⟨hx, List.nodup_cons.mpr h⟩
    · rw [show insertStr x (y :: rest) = y :: insertStr x rest by simp [insertStr, hle]]
      refine List.nodup_cons.mpr ⟨?_, ih (fun hm => hx (List.mem_cons_of_mem _ hm)) h.2⟩
      intro hy
      rcases mem_insertStr.mp hy with h1 | h2
      · exact hx (h1 ▸ List.mem_cons_self y rest)
      · exact h.1 h2

theorem mem_sortStrs {a : String} {l : List String} : a ∈ sortStrs l ↔ a ∈ l := by
  induction l with
  | nil => simp [sortStrs]
  | cons x rest ih =>
    show a ∈ insertStr x (sortStrs rest) ↔ _
    rw [mem_insertStr, ih]
    simp

theorem nodup_sortStrs {l : List String} (h : l.Nodup) : (sortStrs l).Nodup := by
  induction l with
  | nil => simp [sortStrs]
  | cons x rest ih =>
    rw [List.nodup_cons] at h
    show (insertStr x (sortStrs rest)).Nodup
    exact nodup_insertStr (fun hm => h.1 (mem_sortStrs.mp hm)) (ih h.2)

theorem executedCommands_nodup (names : List String) : (executedCommands names).Nodup :=
  nodup_sortStrs names.nodup_dedup

theorem mem_executedCommands {n : String} {names : List String} :
    n ∈ executedCommands names ↔ n ∈ names := by
  unfold executedCommands
  rw [mem_sortStrs, List.mem_dedup]

theorem runJsonCommands_fst (runner : String → RunnerOutput)
    (jparse : String → Except String Json) (commands : List (String × String))
    (names : List String) :
    (runJsonCommands runner jparse commands names).map Prod.fst = executedCommands names := by
  unfold runJsonCommands
  rw [List.map_map]
  exact List.map_id _

/-- C2: in one check run the engine collects the command names referenced
by assertions and summary metrics, executes each distinct name exactly once
(the memo's key list has no duplicates yet covers every referenced name),
and when a command's single memoized result is a failure, every assertion
and every metric referencing that command reports that result's reason
string verbatim, with `ok = false` and the check failure code. -/
theorem check_engine_memoizes_and_shares_failure_reasons
    (runner : String → RunnerOutput) (jparse : String → Except String Json)
    (commands : List (String × String)) (assertions : List CheckAssertion)
    (metrics : List CiSummaryMetric) :
    ((runJsonCommands runner jparse commands
        (referencedCommands assertions metrics)).map Prod.fst).Nodup ∧
    (∀ n ∈ referencedCommands assertions metrics,
      n ∈ (runJsonCommands runner jparse commands
        (referencedCommands assertions metrics)).map Prod.fst) ∧
    (∀ (a : CheckAssertion) (err so se : String),
      lookupAssoc (runJsonCommands runner jparse commands
          (referencedCommands assertions metrics)) a.command = some (.fail err so se) →
      ∃ r, evalAssertion (runJsonCommands runner jparse commands
          (referencedCommands assertions metrics)) a = some r ∧
        r.ok = false ∧ r.reason = some err ∧ r.code = some ERR_CHECK) ∧
    (∀ (m : CiSummaryMetric) (err so se : String),
      lookupAssoc (runJsonCommands runner jparse commands
          (referencedCommands assertions metrics)) m.command = some (.fail err so se) →
      ∃ r, evalMetric (runJsonCommands runner jparse commands
          (referencedCommands assertions metrics)) m = some r ∧
        r.ok = false ∧ r.reason = some err ∧ r.code = some ERR_CHECK) := by
  refine ⟨?_, ?_, ?_, ?_⟩
  · rw [runJsonCommands_fst]
    exact executedCommands_nodup _
  · intro n hn
    rw [runJsonCommands_fst]
    exact mem_executedCommands.mpr hn
  · intro a err so se h
    exact ⟨_, by unfold evalAssertion; rw [h], rfl, rfl, rfl⟩
  · intro m err so se h
    exact ⟨_, by unfold evalMetric; rw [h], rfl, rfl, rfl⟩

/-- C2 witness: one failing command (`exit 1`) referenced by one assertion
and one metric; both report the identical memoized reason. -/
theorem check_engine_memoization_witness :
    (∃ r, evalAssertion (runJsonCommands (fun _ => ⟨1, "boom", "err"⟩)
        (fun _ => .error "x") [("audit", "cat audit.json")]
        (referencedCommands [⟨"audit", "a", "eq", Json.num 1, none⟩]
          [⟨"m", "audit", "a", none, none⟩]))
        ⟨"audit", "a", "eq", Json.num 1, none⟩ = some r ∧
      r.ok = false ∧ r.reason = some "command failed with exit code 1" ∧
      r.code = some ERR_CHECK) ∧
    (∃ r, evalMetric (runJsonCommands (fun _ => ⟨1, "boom", "err"⟩)
        (fun _ => .error "x") [("audit", "cat audit.json")]
        (referencedCommands [⟨"audit", "a", "eq", Json.num 1, none⟩]
          [⟨"m", "audit", "a", none, none⟩]))
        ⟨"m", "audit", "a", none, none⟩ = some r ∧
      r.ok = false ∧ r.reason = some "command failed with exit code 1" ∧
      r.code = some ERR_CHECK) := by
  have h := check_engine_memoizes_and_shares_failure_reasons
    (fun _ => ⟨1, "boom", "err"⟩) (fun _ => .error "x") [("audit", "cat audit.json")]
    [⟨"audit", "a", "eq", Json.num 1, none⟩] [⟨"m", "audit", "a", none, none⟩]
  exact ⟨h.2.2.1 ⟨"audit", "a", "eq", Json.num 1, none⟩
           "command failed with exit code 1" "boom" "err" rfl,
         h.2.2.2 ⟨"m", "audit", "a", none, none⟩
           "command failed with exit code 1" "boom" "err" rfl⟩

/-! ## Claim C4 -/

/-- C4: over the same memoized per-command results assertions consume, a
`threshold` gate whose resolved value is the number `v` passes iff `v` is
at most the upper bound and, when a lower bound is given, at least it — in
particular with upper bound `0` it passes iff `v ≤ 0` — and an `equals`
gate passes iff the resolved value Python-equals the expected value. -/
theorem gate_evaluation_semantics (crs : List (String × CmdResult)) (g : CheckGate)
    (payload : Json) (v : Int) (so se : String)
    (hcmd : lookupAssoc crs g.command = some (.ok payload so se))
    (hres : resolveJsonPath payload g.path = (true, some (Json.num v), none)) :
    (∀ upper lower, g.kind = .threshold upper lower →
      ∃ r, evalGate crs g = some r ∧
        (r.ok = true ↔ v ≤ upper ∧ ∀ lo ∈ lower, lo ≤ v)) ∧
    (g.kind = .threshold 0 none →
      ∃ r, evalGate crs g = some r ∧ (r.ok = true ↔ v ≤ 0)) ∧
    (∀ expected, g.kind = .equals expected →
      ∃ r, evalGate crs g = some r ∧ r.ok = pyEq (Json.num v) expected) := by
  have hbase : evalGate crs g =
      (match g.kind with
       | .threshold upper lower =>
         let pass := decide (v ≤ upper) && (match lower with
           | none => true
           | some lo => decide (lo ≤ v))
         some { ok := pass, value := some (Json.num v),
                reason := if pass then none else some "threshold not satisfied" }
       | .equals expected =>
         let pass := pyEq (Json.num v) expected
         some { ok := pass, value := some (Json.num v),
                reason := if pass then none else some "value does not equal expected" }) := by
    unfold evalGate
    rw [hcmd]
    dsimp only
    rw [hres]
    rfl
  have hthr : ∀ upper lower, g.kind = .threshold upper lower →
      ∃ r, evalGate crs g = some r ∧
        (r.ok = true ↔ v ≤ upper ∧ ∀ lo ∈ lower, lo ≤ v) := by
    intro upper lower hk
    rw [hbase, hk]
    refine ⟨_, rfl, ?_⟩
    cases lower with
    | none => simp
    | some lo => simp [And.comm]
  refine ⟨hthr, ?_, ?_⟩
  · intro hk
    obtain ⟨r, hr, hiff⟩ := hthr 0 none hk
    exact ⟨r, hr, by simpa using hiff⟩
  · intro expected hk
    rw [hbase, hk]
    exact ⟨_, rfl, rfl⟩

/-- C4 witness: a threshold gate with `max = 0` over a memoized payload
`{"p": 0}` passes iff `0 ≤ 0`. -/
theorem gate_evaluation_semantics_witness :
    ∃ r, evalGate [("audit", CmdResult.ok (Json.obj [("p", Json.num 0)]) "" "")]
        ⟨some "migrations", "audit", "p", .threshold 0 none⟩ = some r ∧
      (r.ok = true ↔ (0 : Int) ≤ 0) := by
  exact (gate_evaluation_semantics
    [("audit", CmdResult.ok (Json.obj [("p", Json.num 0)]) "" "")]
    ⟨some "migrations", "audit", "p", .threshold 0 none⟩
    (Json.obj [("p", Json.num 0)]) 0 "" "" rfl rfl).2.1 rfl


/-! ## Claim C10 -/

theorem validateAssertionMessage_ok {cfgPath : String} {idx : Nat}
    {fields : List (String × Json)} {c p o : String} {v : Json} {a : CheckAssertion}
    (h : validateAssertionMessage cfgPath idx fields c p o v = .ok a) :
    a.op = o ∧ a.value = v := by
  unfold validateAssertionMessage at h
  repeat' split at h
  all_goals try exact Except.noConfusion h
  all_goals (injection h with h2; subst h2; exact ⟨rfl, rfl⟩)

/-- C10: the loader rejects any `[checks].assertions` entry whose `op` is
`in`/`not_in` with a non-array `value`, so on every assertion it accepts
with one of those operators `_compare_assertion` receives an array operand
and returns the membership verdict with no "expected array" error — that
failure branch is unreachable for loaded assertions. -/
theorem loader_makes_in_operator_array_branch_unreachable
    (cfgPath : String) (commands : List (String × String)) (idx : Nat) (raw : Json)
    (a : CheckAssertion) (h : validateAssertion cfgPath commands idx raw = .ok a)
    (hop : a.op = "in" ∨ a.op = "not_in") :
    ∃ items, a.value = Json.arr items ∧
      ∀ actual, compareAssertion actual a.op a.value =
        (if a.op = "in" then pyMem actual items else !pyMem actual items, none) := by
  cases raw with
  | obj fields =>
    unfold validateAssertion at h
    repeat' split at h
    all_goals try exact Except.noConfusion h
    all_goals (
      obtain ⟨hmo, hmv⟩ := validateAssertionMessage_ok h
      rcases hop with h1 | h1 <;>
        first
          | (rw [h1, hmv]; exact ⟨_, rfl, fun actual => rfl⟩)
          | (exfalso; simp_all))
  | null => exact absurd h (by simp [validateAssertion])
  | bool b => exact absurd h (by simp [validateAssertion])
  | num n => exact absurd h (by simp [validateAssertion])
  | str s => exact absurd h (by simp [validateAssertion])
  | arr items => exact absurd h (by simp [validateAssertion])

/-- C10 witness: a loaded assertion `op = "in"`, `value = [1]` compares by
membership with no error. -/
theorem loader_in_operator_witness :
    ∃ items, (CheckAssertion.mk "audit" "a" "in" (Json.arr [Json.num 1]) none).value =
        Json.arr items ∧
      ∀ actual,
        compareAssertion actual (CheckAssertion.mk "audit" "a" "in"
            (Json.arr [Json.num 1]) none).op
          (CheckAssertion.mk "audit" "a" "in" (Json.arr [Json.num 1]) none).value =
        (if (CheckAssertion.mk "audit" "a" "in" (Json.arr [Json.num 1]) none).op = "in"
         then pyMem actual items else !pyMem actual items, none) := by
  exact loader_makes_in_operator_array_branch_unreachable "intent.toml"
    [("audit", "cat audit.json")] 0
    (Json.obj [("command", Json.str "audit"), ("path", Json.str "a"),
               ("op", Json.str "in"), ("value", Json.arr [Json.num 1])])
    (CheckAssertion.mk "audit" "a" "in" (Json.arr [Json.num 1]) none)
    rfl (Or.inl rfl)

/-! ## Claim C3 -/

theorem isPrefixOf_append_self : ∀ (l r : List Char), l.isPrefixOf (l ++ r) = true := by
  intro l
  induction l with
  | nil => intro r; simp [List.isPrefixOf]
  | cons c cs ih => intro r; simp [List.cons_append, List.isPrefixOf, ih]

theorem infixOfB_append_self (needle rest : List Char) :
    infixOfB needle (needle ++ rest) = true := by
  cases needle with
  | nil =>
    cases rest with
    | nil => rfl
    | cons c t => simp [infixOfB, List.isPrefixOf]
  | cons c cs =>
    have h := isPrefixOf_append_self (c :: cs) rest
    simp only [List.cons_append] at h
    simp [infixOfB, h]

theorem pyContains_append_self (m t : String) : pyContains (m ++ t) m = true := by
  unfold pyContains
  cases m with
  | mk md =>
    cases t with
    | mk td =>
      show infixOfB md (md ++ td) = true
      exact infixOfB_append_self md td

theorem pyRstrip_append (x y : String) (h : ∃ c ∈ y.data, pyIsSpace c = false) :
    pyRstrip (x ++ y) = x ++ pyRstrip y := by
  cases x with
  | mk xd =>
    cases y with
    | mk yd =>
      show String.mk (((xd ++ yd).reverse.dropWhile pyIsSpace).reverse) =
        String.mk (xd ++ (yd.reverse.dropWhile pyIsSpace).reverse)
      congr 1
      rw [List.reverse_append, List.dropWhile_append]
      have hne : (yd.reverse.dropWhile pyIsSpace).isEmpty = false := by
        obtain ⟨c, hc, hcs⟩ := h
        by_contra hab
        have hemp : yd.reverse.dropWhile pyIsSpace = [] := by
          cases he : yd.reverse.dropWhile pyIsSpace with
          | nil => rfl
          | cons a t => rw [he] at hab; simp at hab
        have hall := List.dropWhile_eq_nil_iff.mp hemp
        have : pyIsSpace c = true := hall c (List.mem_reverse.mpr hc)
        rw [hcs] at this
        exact Bool.noConfusion this
      rw [hne]
      simp only [Bool.false_eq_true, if_false, ite_false]
      rw [List.reverse_append, List.reverse_reverse]

theorem joinSep_cons_head (sep x : String) (xs : List String) :
    ∃ t, pyJoinSep sep (x :: xs) = x ++ t := by
  cases xs with
  | nil =>
    refine ⟨"", ?_⟩
    show x = x ++ ""
    cases x with
    | mk xd =>
      show String.mk xd = String.mk (xd ++ [])
      rw [List.append_nil]
  | cons y rest =>
    refine ⟨sep ++ pyJoinSep sep (y :: rest), ?_⟩
    show x ++ sep ++ pyJoinSep sep (y :: rest) = x ++ (sep ++ pyJoinSep sep (y :: rest))
    rw [String.append_assoc]

theorem marker_block_contains (L : List String) :
    pyContains (pyRstrip (pyJoinSep "\n" (GENERATED_MARKER :: "# DO NOT EDIT" :: L)) ++ "\n")
      GENERATED_MARKER = true := by
  obtain ⟨t, ht⟩ := joinSep_cons_head "\n" "# DO NOT EDIT" L
  have h1 : pyJoinSep "\n" (GENERATED_MARKER :: "# DO NOT EDIT" :: L) =
      GENERATED_MARKER ++ ("\n" ++ pyJoinSep "\n" ("# DO NOT EDIT" :: L)) := by
    show GENERATED_MARKER ++ "\n" ++ pyJoinSep "\n" ("# DO NOT EDIT" :: L) = _
    rw [String.append_assoc]
  have hmem : ∃ c ∈ ("\n" ++ pyJoinSep "\n" ("# DO NOT EDIT" :: L)).data,
      pyIsSpace c = false := by
    refine ⟨'#', ?_, by decide⟩
    rw [ht, String.data_append, String.data_append]
    exact List.mem_append_right _ (List.mem_append_left _ (by decide))
  rw [h1, pyRstrip_append _ _ hmem, String.append_assoc]
  exact pyContains_append_self GENERATED_MARKER _

theorem render_ci_contains_marker (cfg : IntentConfig) :
    pyContains (render_ci cfg) GENERATED_MARKER = true := by
  unfold render_ci
  by_cases hj : cfg.ciJobs.isEmpty
  · simp only [hj, Bool.not_true, Bool.false_eq_true, if_false, ite_false]
    exact marker_block_contains _
  · simp only [hj, Bool.not_false, if_true, ite_true]
    exact marker_block_contains _

theorem lookupAssoc_fsUpdate (fs : FS) (k v : String) :
    lookupAssoc (fsUpdate fs k v) k = some v := by
  induction fs with
  | nil => simp [fsUpdate, lookupAssoc]
  | cons kv rest ih =>
    by_cases h : kv.1 = k
    · simp [fsUpdate, lookupAssoc, h]
    · simp [fsUpdate, lookupAssoc, h, ih]

/-- C3: writing `render_ci cfg` twice in strict mode to an initially absent
path creates the file the first time and leaves it unchanged the second
time — no `OwnershipError` — because the rendered content begins with the
ownership marker, so the first write leaves the file tool-owned and
byte-equal to the second write. -/
theorem write_render_twice_idempotent (cfg : IntentConfig) (pathStr : String) (fs : FS)
    (h : lookupAssoc fs pathStr = (none : Option String)) :
    write_generated_file fs pathStr (render_ci cfg) .strict =
      .ok (.created, fsUpdate fs pathStr (render_ci cfg)) ∧
    write_generated_file (fsUpdate fs pathStr (render_ci cfg)) pathStr (render_ci cfg)
        .strict = .ok (.unchanged, fsUpdate fs pathStr (render_ci cfg)) := by
  have hm := render_ci_contains_marker cfg
  constructor
  · unfold write_generated_file
    rw [hm, h]
    simp
  · unfold write_generated_file
    rw [hm, lookupAssoc_fsUpdate]
    simp

/-- C3 witness: the minimal sample config, an empty filesystem and the
workflow path. -/
theorem write_render_twice_idempotent_witness :
    write_generated_file [] ".github/workflows/ci.yml" (render_ci sampleIntentConfig)
        .strict = .ok (.created, fsUpdate [] ".github/workflows/ci.yml"
          (render_ci sampleIntentConfig)) ∧
    write_generated_file (fsUpdate [] ".github/workflows/ci.yml"
        (render_ci sampleIntentConfig)) ".github/workflows/ci.yml"
        (render_ci sampleIntentConfig) .strict =
      .ok (.unchanged, fsUpdate [] ".github/workflows/ci.yml"
        (render_ci sampleIntentConfig)) :=
  write_render_twice_idempotent sampleIntentConfig ".github/workflows/ci.yml" [] rfl

theorem reconcilePyprojectStep_plan_frame (allowExisting : Bool) (status : PyStatus)
    (pspec : Option String) (recommended target : String) (fsPy : Option String) :
    (reconcilePyprojectStep false allowExisting status pspec recommended target fsPy).1 = fsPy := by
  cases status <;> simp [reconcilePyprojectStep] <;> repeat' split <;> simp_all

theorem reconcilePythonVersionStep_plan_frame (allowExisting : Bool) (target : String)
    (fsPv : Option String) :
    (reconcilePythonVersionStep false allowExisting target fsPv).1 = fsPv := by
  unfold reconcilePythonVersionStep
  cases h : readPythonVersionFile fsPv <;> simp <;> repeat' split <;> simp_all

theorem reconcileToolVersionsStep_plan_frame (allowExisting : Bool) (target : String)
    (fsTv : Option String) :
    (reconcileToolVersionsStep false allowExisting target fsTv).1 = fsTv := by
  unfold reconcileToolVersionsStep
  cases h : readToolVersionsPython fsTv <;> simp <;> repeat' split <;> simp_all

/-- C6: reconcile in plan mode (plan on, apply off) performs no filesystem
mutation: for every TOML reader, configured python version, flag value and
initial filesystem state, the resulting filesystem is exactly the input one
— every file keeps byte-identical content and none is created or deleted. -/
theorem reconcile_plan_never_mutates (readPyproject : Option String → PyStatus × Option String)
    (cfgPython : Option String) (allowExisting : Bool) (fs : ReconcileFS) :
    (reconcile readPyproject cfgPython true false allowExisting fs).fs = fs := by
  unfold reconcile
  cases cfgPython with
  | none => rfl
  | some target =>
    simp only [show (true = false) = False by simp, if_false]
    rw [reconcilePyprojectStep_plan_frame, reconcilePythonVersionStep_plan_frame,
        reconcileToolVersionsStep_plan_frame]
